import Mathlib

/-!
# First-person camera controller (tutorial6_camera/camera.h, main.cpp)

A shallow embedding of the camera class of the demo.  The C++ `float` scalars are
idealised as elements of a linearly ordered field `α` (exact arithmetic, no rounding,
no NaN or infinities); the embedding is executable at `α = ℚ` and is instantiated at
`α = ℝ` for the statements that involve the trigonometric functions and square roots.

The transcendental routines the class calls (`cos`, `sin` from the C math library and
`inversesqrt` behind `glm::normalize`, plus the constant π behind `glm::radians`) are
passed in as a record `MathOps α`; the real instance is
`⟨Real.cos, Real.sin, fun x => 1 / Real.sqrt x, Real.pi⟩`.

Where a property depends on the special values of `float` (the infinities, NaN, overflow),
the methods concerned are embedded a second time over the type `float` below, in the
namespace `Binary32`; that model leaves out only the rounding of finite results.
-/

namespace FpsDemo

/-- The scalar routines of the C math library and of glm that the camera uses as primitives. -/
structure MathOps (α : Type) where
  cos : α → α
  sin : α → α
  inversesqrt : α → α
  pi : α

/-- Three-component vector, as `glm::vec3`. -/
structure vec3 (α : Type) where
  x : α
  y : α
  z : α

/-- Four by four matrix, as `glm::mat4`: column-major, `m c r` is `m[c][r]` (column `c`, row `r`). -/
def mat4 (α : Type) : Type := Fin 4 → Fin 4 → α

/-- Movement directions, as `enum Camera_Movement`. -/
inductive Camera_Movement where
  | FORWARD
  | BACKWARD
  | LEFT
  | RIGHT
deriving DecidableEq, Repr

/-- The camera object together with the three file-scope globals of camera.h
(`sprintEnabled`, `isInAir`, `yVelocity`), which the methods read and write. -/
structure Camera (α : Type) where
  Position : vec3 α
  Front : vec3 α
  Up : vec3 α
  Right : vec3 α
  WorldUp : vec3 α
  Yaw : α
  Pitch : α
  MovementSpeed : α
  SprintSpeed : α
  MouseSensitivity : α
  Zoom : α
  sprintEnabled : Bool
  isInAir : Bool
  yVelocity : α

section Defs

variable {α : Type} [LinearOrderedField α]

def YAW : α := -90
def PITCH : α := 0
def MOVEMENT_SPEED : α := 7
def SPRINT_SPEED : α := 14
def SENSITIVITY : α := 0.05
def ZOOM : α := 45

def BOUNDARY_X1 : α := -8.5
def BOUNDARY_X2 : α := 8.5
def BOUNDARY_Z1 : α := -8.5
def BOUNDARY_Z2 : α := 8.5

def GRAVITY : α := 14
def JUMP_INITIAL_VELOCITY : α := 7

namespace vec3

/-- Componentwise sum (`operator+`). -/
def add (a b : vec3 α) : vec3 α := ⟨a.x + b.x, a.y + b.y, a.z + b.z⟩

/-- Componentwise difference (`operator-`). -/
def sub (a b : vec3 α) : vec3 α := ⟨a.x - b.x, a.y - b.y, a.z - b.z⟩

/-- Vector times scalar (`operator*`). -/
def scale (a : vec3 α) (k : α) : vec3 α := ⟨a.x * k, a.y * k, a.z * k⟩

/-- Dot product, as `glm::dot`. -/
def dot (a b : vec3 α) : α := a.x * b.x + a.y * b.y + a.z * b.z

/-- Cross product, as `glm::cross`. -/
def cross (a b : vec3 α) : vec3 α :=
  ⟨a.y * b.z - b.y * a.z, a.z * b.x - b.z * a.x, a.x * b.y - b.x * a.y⟩

/-- Normalisation, as `glm::normalize`: the vector times `inversesqrt (dot v v)`. -/
def normalize (M : MathOps α) (v : vec3 α) : vec3 α := scale v (M.inversesqrt (dot v v))

end vec3

/-- Degrees to radians, as `glm::radians`. -/
def radians (M : MathOps α) (degrees : α) : α := degrees * (M.pi / 180)

namespace mat4

/-- The identity matrix, as `glm::mat4(1.0f)`. -/
def identity : mat4 α := fun c r => if c = r then 1 else 0

/-- Assignment `m[c][r] = v`. -/
def set (m : mat4 α) (c r : Fin 4) (v : α) : mat4 α :=
  fun c2 r2 => if c2 = c ∧ r2 = r then v else m c2 r2

/-- Matrix product, as glm `operator*` on column-major matrices. -/
def mul (a b : mat4 α) : mat4 α :=
  fun c r => a 0 r * b c 0 + a 1 r * b c 1 + a 2 r * b c 2 + a 3 r * b c 3

/-- Matrix applied to a homogeneous column vector `(v 0, v 1, v 2, v 3)`. -/
def mulVec (a : mat4 α) (v : Fin 4 → α) : Fin 4 → α :=
  fun r => a 0 r * v 0 + a 1 r * v 1 + a 2 r * v 2 + a 3 r * v 3

end mat4

/-- Method `Camera::updateCameraVectors`. -/
def updateCameraVectors (M : MathOps α) (c : Camera α) : Camera α :=
  let front : vec3 α :=
    ⟨M.cos (radians M c.Yaw) * M.cos (radians M c.Pitch),
     M.sin (radians M c.Pitch),
     M.sin (radians M c.Yaw) * M.cos (radians M c.Pitch)⟩
  let Front := vec3.normalize M front
  let Right := vec3.normalize M (vec3.cross Front c.WorldUp)
  let Up := vec3.normalize M (vec3.cross Right Front)
  { c with Front := Front, Right := Right, Up := Up }

/-- Constructor with vectors.  `Up` and `Right` have no initialiser in the source; they
are assigned by `updateCameraVectors` before the constructor returns.  The three globals
start at their file-scope initial values. -/
def Camera.new (M : MathOps α) (position : vec3 α) (up : vec3 α) (yaw pitch : α) : Camera α :=
  updateCameraVectors M
    { Position := position
      Front := ⟨0, 0, -1⟩
      Up := ⟨0, 0, 0⟩
      Right := ⟨0, 0, 0⟩
      WorldUp := up
      Yaw := yaw
      Pitch := pitch
      MovementSpeed := MOVEMENT_SPEED
      SprintSpeed := SPRINT_SPEED
      MouseSensitivity := SENSITIVITY
      Zoom := ZOOM
      sprintEnabled := false
      isInAir := false
      yVelocity := 0 }

/-- Constructor with scalar values. -/
def Camera.newScalars (M : MathOps α) (posX posY posZ upX upY upZ yaw pitch : α) : Camera α :=
  Camera.new M ⟨posX, posY, posZ⟩ ⟨upX, upY, upZ⟩ yaw pitch

/-- The camera of main.cpp: `Camera camera(glm::vec3(0.0f, 2.0f, 7.0f))`, other arguments defaulted. -/
def mainCamera (M : MathOps α) : Camera α := Camera.new M ⟨0, 2, 7⟩ ⟨0, 1, 0⟩ YAW PITCH

/-- Method `Camera::SetSprint`. -/
def SetSprint (c : Camera α) (isTrue : Bool) : Camera α :=
  { c with sprintEnabled := isTrue }

/-- Method `Camera::Jump`. -/
def Jump (c : Camera α) : Camera α :=
  if !c.isInAir then
    { c with isInAir := true, yVelocity := JUMP_INITIAL_VELOCITY }
  else c

/-- Method `Camera::Update`. -/
def Update (c : Camera α) (deltaTime : α) : Camera α :=
  let c1 : Camera α :=
    if c.isInAir then
      { c with
        Position := { c.Position with y := c.Position.y + c.yVelocity * deltaTime }
        yVelocity := c.yVelocity - GRAVITY * deltaTime }
    else c
  if c1.Position.y < 2 then
    { c1 with Position := { c1.Position with y := 2 }, isInAir := false }
  else c1

/-- Method `Camera::GetXZDirection`. -/
def GetXZDirection (M : MathOps α) (front : vec3 α) : vec3 α :=
  vec3.normalize M { front with y := 0 }

/-- Method `Camera::ProcessKeyboard`. -/
def ProcessKeyboard (M : MathOps α) (c : Camera α) (direction : Camera_Movement)
    (deltaTime : α) : Camera α :=
  let velocity : α :=
    if c.sprintEnabled then c.SprintSpeed * deltaTime else c.MovementSpeed * deltaTime
  let p0 := c.Position
  let p1 := if direction = Camera_Movement.FORWARD then
      vec3.add p0 (vec3.scale (GetXZDirection M c.Front) velocity) else p0
  let p2 := if direction = Camera_Movement.BACKWARD then
      vec3.sub p1 (vec3.scale (GetXZDirection M c.Front) velocity) else p1
  let p3 := if direction = Camera_Movement.LEFT then
      vec3.sub p2 (vec3.scale (GetXZDirection M c.Right) velocity) else p2
  let p4 := if direction = Camera_Movement.RIGHT then
      vec3.add p3 (vec3.scale (GetXZDirection M c.Right) velocity) else p3
  let p5 := if p4.x < BOUNDARY_X1 then { p4 with x := BOUNDARY_X1 } else p4
  let p6 := if p5.x > BOUNDARY_X2 then { p5 with x := BOUNDARY_X2 } else p5
  let p7 := if p6.z < BOUNDARY_Z1 then { p6 with z := BOUNDARY_Z1 } else p6
  let p8 := if p7.z > BOUNDARY_Z2 then { p7 with z := BOUNDARY_Z2 } else p7
  { c with Position := p8 }

/-- The position after the four direction branches of `ProcessKeyboard`, before the
boundary check (the value of `Position` at the comment "Check boundaries"). -/
def displaced (M : MathOps α) (c : Camera α) (direction : Camera_Movement)
    (deltaTime : α) : vec3 α :=
  let velocity : α :=
    if c.sprintEnabled then c.SprintSpeed * deltaTime else c.MovementSpeed * deltaTime
  let p0 := c.Position
  let p1 := if direction = Camera_Movement.FORWARD then
      vec3.add p0 (vec3.scale (GetXZDirection M c.Front) velocity) else p0
  let p2 := if direction = Camera_Movement.BACKWARD then
      vec3.sub p1 (vec3.scale (GetXZDirection M c.Front) velocity) else p1
  let p3 := if direction = Camera_Movement.LEFT then
      vec3.sub p2 (vec3.scale (GetXZDirection M c.Right) velocity) else p2
  if direction = Camera_Movement.RIGHT then
      vec3.add p3 (vec3.scale (GetXZDirection M c.Right) velocity) else p3

/-- The four boundary checks that end `ProcessKeyboard`, as a function of the displaced position. -/
def checkBoundaries (p4 : vec3 α) : vec3 α :=
  let p5 := if p4.x < BOUNDARY_X1 then { p4 with x := BOUNDARY_X1 } else p4
  let p6 := if p5.x > BOUNDARY_X2 then { p5 with x := BOUNDARY_X2 } else p5
  let p7 := if p6.z < BOUNDARY_Z1 then { p6 with z := BOUNDARY_Z1 } else p6
  if p7.z > BOUNDARY_Z2 then { p7 with z := BOUNDARY_Z2 } else p7

/-- Method `Camera::ProcessMouseMovement`; `constrainPitch` defaults to `true` at the only call site. -/
def ProcessMouseMovement (M : MathOps α) (c : Camera α) (xoffset yoffset : α)
    (constrainPitch : Bool) : Camera α :=
  let xoffset := xoffset * c.MouseSensitivity
  let yoffset := yoffset * c.MouseSensitivity
  let yaw := c.Yaw + xoffset
  let pitch := c.Pitch + yoffset
  let pitch :=
    if constrainPitch then
      let pitch1 := if pitch > 89 then 89 else pitch
      if pitch1 < -89 then -89 else pitch1
    else pitch
  updateCameraVectors M { c with Yaw := yaw, Pitch := pitch }

/-- Method `Camera::ProcessMouseScroll`. -/
def ProcessMouseScroll (c : Camera α) (yoffset : α) : Camera α :=
  let zoom := c.Zoom - yoffset
  let zoom := if zoom < 1 then 1 else zoom
  let zoom := if zoom > 45 then 45 else zoom
  { c with Zoom := zoom }

/-- Method `Camera::calculate_lookAt_matrix`. -/
def calculate_lookAt_matrix (M : MathOps α) (position target worldUp : vec3 α) : mat4 α :=
  let zaxis := vec3.normalize M (vec3.sub position target)
  let xaxis := vec3.normalize M (vec3.cross (vec3.normalize M worldUp) zaxis)
  let yaxis := vec3.cross zaxis xaxis
  let translation : mat4 α := mat4.identity
  let translation := translation.set 3 0 (-position.x)
  let translation := translation.set 3 1 (-position.y)
  let translation := translation.set 3 2 (-position.z)
  let rotation : mat4 α := mat4.identity
  let rotation := rotation.set 0 0 xaxis.x
  let rotation := rotation.set 1 0 xaxis.y
  let rotation := rotation.set 2 0 xaxis.z
  let rotation := rotation.set 0 1 yaxis.x
  let rotation := rotation.set 1 1 yaxis.y
  let rotation := rotation.set 2 1 yaxis.z
  let rotation := rotation.set 0 2 zaxis.x
  let rotation := rotation.set 1 2 zaxis.y
  let rotation := rotation.set 2 2 zaxis.z
  mat4.mul rotation translation

/-- Method `Camera::GetViewMatrix`. -/
def GetViewMatrix (M : MathOps α) (c : Camera α) : mat4 α :=
  calculate_lookAt_matrix M c.Position (vec3.add c.Position c.Front) c.Up

/-- A call of the host program on the vertical-motion state. -/
inductive VerticalCall (α : Type) where
  | jump : VerticalCall α
  | update (deltaTime : α) : VerticalCall α

/-- Effect of one call. -/
def VerticalCall.apply (c : Camera α) : VerticalCall α → Camera α
  | VerticalCall.jump => Jump c
  | VerticalCall.update deltaTime => Update c deltaTime

/-- Effect of a sequence of calls, first call first. -/
def runCalls (c : Camera α) (calls : List (VerticalCall α)) : Camera α :=
  calls.foldl VerticalCall.apply c

/-- The textbook right-handed look-at matrix, written from its usual statement: with
`f = normalize (target - eye)`, `s = normalize (cross f up)`, `u = cross s f`, the rows are
`(s, -dot s eye)`, `(u, -dot u eye)`, `(-f, dot f eye)`, `(0, 0, 0, 1)`.
Indexed like `mat4`: `lookAt M eye target up c r` is the entry in column `c`, row `r`. -/
def lookAt (M : MathOps α) (eye target up : vec3 α) : mat4 α :=
  let f := vec3.normalize M (vec3.sub target eye)
  let s := vec3.normalize M (vec3.cross f up)
  let u := vec3.cross s f
  fun c r =>
    match r, c with
    | 0, 0 => s.x
    | 0, 1 => s.y
    | 0, 2 => s.z
    | 0, 3 => -vec3.dot s eye
    | 1, 0 => u.x
    | 1, 1 => u.y
    | 1, 2 => u.z
    | 1, 3 => -vec3.dot u eye
    | 2, 0 => -f.x
    | 2, 1 => -f.y
    | 2, 2 => -f.z
    | 2, 3 => vec3.dot f eye
    | 3, 0 => 0
    | 3, 1 => 0
    | 3, 2 => 0
    | 3, 3 => 1

/-- The matrix whose first three rows are `(a, -dot a p)` for `a` among `x`, `y`, `z`
and whose last row is `(0, 0, 0, 1)`. -/
def rowsMatrix (x y z p : vec3 α) : mat4 α :=
  fun c r =>
    match r, c with
    | 0, 0 => x.x
    | 0, 1 => x.y
    | 0, 2 => x.z
    | 0, 3 => -vec3.dot x p
    | 1, 0 => y.x
    | 1, 1 => y.y
    | 1, 2 => y.z
    | 1, 3 => -vec3.dot y p
    | 2, 0 => z.x
    | 2, 1 => z.y
    | 2, 2 => z.z
    | 2, 3 => -vec3.dot z p
    | 3, 0 => 0
    | 3, 1 => 0
    | 3, 2 => 0
    | 3, 3 => 1

/-- A grounded camera with the pose and tunables of the one constructed in main.cpp
(`Position = (0, 2, 7)`, `Front = (0, 0, -1)`, default speeds, sprint off, on the ground). -/
def groundedExample : Camera α :=
  { Position := ⟨0, 2, 7⟩
    Front := ⟨0, 0, -1⟩
    Up := ⟨0, 1, 0⟩
    Right := ⟨1, 0, 0⟩
    WorldUp := ⟨0, 1, 0⟩
    Yaw := -90
    Pitch := 0
    MovementSpeed := MOVEMENT_SPEED
    SprintSpeed := SPRINT_SPEED
    MouseSensitivity := SENSITIVITY
    Zoom := ZOOM
    sprintEnabled := false
    isInAir := false
    yVelocity := 0 }

/-- The same camera in mid-flight: one unit above the floor, rising at 5 units per second. -/
def airborneExample : Camera α :=
  { (groundedExample : Camera α) with
    Position := ⟨0, 3, 7⟩
    isInAir := true
    yVelocity := 5 }

end Defs

/-- The basis cached in the camera is orthonormal: each of `Front`, `Right`, `Up` has
length 1 (`glm::length`, the square root of the dot product with itself) and the three
pairwise dot products vanish. -/
def OrthonormalBasis (c : Camera ℝ) : Prop :=
  Real.sqrt (vec3.dot c.Front c.Front) = 1 ∧
  Real.sqrt (vec3.dot c.Right c.Right) = 1 ∧
  Real.sqrt (vec3.dot c.Up c.Up) = 1 ∧
  vec3.dot c.Front c.Right = 0 ∧
  vec3.dot c.Front c.Up = 0 ∧
  vec3.dot c.Right c.Up = 0


section KeyDefs

variable {α : Type} [LinearOrderedField α]

/-- Action code `GLFW_RELEASE` of the GLFW 3 header. -/
def GLFW_RELEASE : Int := 0

/-- Action code `GLFW_PRESS` of the GLFW 3 header. -/
def GLFW_PRESS : Int := 1

/-- Key code `GLFW_KEY_SPACE` of the GLFW 3 header. -/
def GLFW_KEY_SPACE : Int := 32

/-- Key code `GLFW_KEY_LEFT_SHIFT` of the GLFW 3 header. -/
def GLFW_KEY_LEFT_SHIFT : Int := 340

/-- Key code `GLFW_KEY_RIGHT_SHIFT` of the GLFW 3 header. -/
def GLFW_KEY_RIGHT_SHIFT : Int := 344

/-- Function `key_callback` of main.cpp, acting on the global camera; the `window`,
`scancode` and `mods` arguments are not read. -/
def key_callback (c : Camera α) (key action : Int) : Camera α :=
  let c1 := if key = GLFW_KEY_LEFT_SHIFT ∧ action = GLFW_PRESS then SetSprint c true else c
  let c2 := if key = GLFW_KEY_LEFT_SHIFT ∧ action = GLFW_RELEASE then SetSprint c1 false else c1
  let c3 := if key = GLFW_KEY_RIGHT_SHIFT ∧ action = GLFW_PRESS then SetSprint c2 true else c2
  let c4 := if key = GLFW_KEY_RIGHT_SHIFT ∧ action = GLFW_RELEASE then SetSprint c3 false else c3
  if key = GLFW_KEY_SPACE ∧ action = GLFW_PRESS then Jump c4 else c4

/-- The two shift keys. -/
inductive ShiftKey where
  | left
  | right
deriving DecidableEq, Repr

/-- A press (`press = true`) or release (`press = false`) of one shift key. -/
structure ShiftEvent where
  key : ShiftKey
  press : Bool
deriving DecidableEq, Repr

/-- The GLFW key code of a shift key. -/
def ShiftKey.code : ShiftKey → Int
  | ShiftKey.left => GLFW_KEY_LEFT_SHIFT
  | ShiftKey.right => GLFW_KEY_RIGHT_SHIFT

/-- The GLFW action code of an event. -/
def ShiftEvent.action (e : ShiftEvent) : Int :=
  if e.press then GLFW_PRESS else GLFW_RELEASE

/-- The camera after `key_callback` has processed the events, first event first. -/
def processShiftEvents (c : Camera α) (events : List ShiftEvent) : Camera α :=
  events.foldl (fun s e => key_callback s e.key.code e.action) c

/-- Whether key `k` is held after the events, starting with the key up: its last event,
if it has one, is a press. -/
def heldAfter (k : ShiftKey) (events : List ShiftEvent) : Bool :=
  events.foldl (fun h e => if e.key = k then e.press else h) false

/-- Whether the last event of the sequence is a press (false for the empty sequence). -/
def lastIsPress (events : List ShiftEvent) : Bool :=
  events.foldl (fun _ e => e.press) false

end KeyDefs

/-! ## The special values of `float`

The definitions above compute with exact numbers.  The C++ `float` type also has two
infinities and NaN; the model below keeps them (and overflow to infinity) and leaves out
only the rounding of finite results.  The methods that the vertical and planar motion
claims are about are repeated over it in the namespace `Binary32`. -/

/-- A value of the C++ `float` type (IEEE 754 binary32) up to rounding: a finite number,
kept as an exact rational, an infinity, or NaN. -/
inductive float where
  | finite (q : ℚ)
  | posInf
  | negInf
  | NaN
deriving DecidableEq

namespace float

/-- The magnitude from which round-to-nearest delivers an infinity: `2^128 - 2^103`,
half a unit in the last place above the largest finite binary32 value. -/
def overflowBound : ℚ := 2 ^ 128 - 2 ^ 103

/-- The value delivered for the exact result `q` of an operation on finite operands. -/
def ofRat (q : ℚ) : float :=
  if overflowBound ≤ q then posInf
  else if q ≤ -overflowBound then negInf
  else finite q

/-- Whether the value is one the type has: a finite value lies below the overflow bound. -/
def valid : float → Prop
  | finite q => -overflowBound < q ∧ q < overflowBound
  | _ => True

/-- Unary minus. -/
def neg : float → float
  | finite q => finite (-q)
  | posInf => negInf
  | negInf => posInf
  | NaN => NaN

/-- Addition: NaN propagates and `inf + -inf` is NaN. -/
def add : float → float → float
  | NaN, _ => NaN
  | _, NaN => NaN
  | posInf, negInf => NaN
  | negInf, posInf => NaN
  | posInf, _ => posInf
  | _, posInf => posInf
  | negInf, _ => negInf
  | _, negInf => negInf
  | finite a, finite b => ofRat (a + b)

/-- Subtraction. -/
def sub (a b : float) : float := add a (neg b)

/-- The product of an infinity of sign `positive` with the finite number `q`:
`0 * inf` is NaN. -/
def mulInf (positive : Bool) (q : ℚ) : float :=
  if q = 0 then NaN
  else if (0 < q) = positive then posInf
  else negInf

/-- Multiplication: NaN propagates and `0 * inf` is NaN. -/
def mul : float → float → float
  | NaN, _ => NaN
  | _, NaN => NaN
  | finite a, finite b => ofRat (a * b)
  | finite a, posInf => mulInf true a
  | finite a, negInf => mulInf false a
  | posInf, finite b => mulInf true b
  | negInf, finite b => mulInf false b
  | posInf, posInf => posInf
  | posInf, negInf => negInf
  | negInf, posInf => negInf
  | negInf, negInf => posInf

/-- Comparison `a < b`: false as soon as an operand is NaN. -/
def lt : float → float → Bool
  | NaN, _ => false
  | _, NaN => false
  | finite a, finite b => decide (a < b)
  | finite _, posInf => true
  | finite _, negInf => false
  | posInf, _ => false
  | negInf, negInf => false
  | negInf, _ => true

/-- Comparison `a <= b`: false as soon as an operand is NaN. -/
def le : float → float → Bool
  | NaN, _ => false
  | _, NaN => false
  | finite a, finite b => decide (a ≤ b)
  | finite _, posInf => true
  | finite _, negInf => false
  | posInf, posInf => true
  | posInf, _ => false
  | negInf, _ => true

instance : Add float := ⟨add⟩
instance : Sub float := ⟨sub⟩
instance : Mul float := ⟨mul⟩
instance : LT float := ⟨fun a b => lt a b = true⟩
instance : LE float := ⟨fun a b => le a b = true⟩
instance (a b : float) : Decidable (a < b) := inferInstanceAs (Decidable (lt a b = true))
instance (a b : float) : Decidable (a ≤ b) := inferInstanceAs (Decidable (le a b = true))

end float

namespace Binary32

def MOVEMENT_SPEED : float := float.finite 7
def SPRINT_SPEED : float := float.finite 14

def BOUNDARY_X1 : float := float.finite (-8.5)
def BOUNDARY_X2 : float := float.finite 8.5
def BOUNDARY_Z1 : float := float.finite (-8.5)
def BOUNDARY_Z2 : float := float.finite 8.5

def GRAVITY : float := float.finite 14
def JUMP_INITIAL_VELOCITY : float := float.finite 7

/-- Componentwise sum (`operator+` of `glm::vec3`). -/
def add (a b : vec3 float) : vec3 float := ⟨a.x + b.x, a.y + b.y, a.z + b.z⟩

/-- Componentwise difference (`operator-` of `glm::vec3`). -/
def sub (a b : vec3 float) : vec3 float := ⟨a.x - b.x, a.y - b.y, a.z - b.z⟩

/-- Vector times scalar (`operator*` of `glm::vec3`). -/
def scale (a : vec3 float) (k : float) : vec3 float := ⟨a.x * k, a.y * k, a.z * k⟩

/-- Dot product, as `glm::dot`. -/
def dot (a b : vec3 float) : float := a.x * b.x + a.y * b.y + a.z * b.z

/-- Normalisation, as `glm::normalize`: the vector times `inversesqrt (dot v v)`. -/
def normalize (M : MathOps float) (v : vec3 float) : vec3 float :=
  scale v (M.inversesqrt (dot v v))

/-- Method `Camera::Jump`. -/
def Jump (c : Camera float) : Camera float :=
  if !c.isInAir then
    { c with isInAir := true, yVelocity := JUMP_INITIAL_VELOCITY }
  else c

/-- Method `Camera::Update`. -/
def Update (c : Camera float) (deltaTime : float) : Camera float :=
  let c1 : Camera float :=
    if c.isInAir then
      { c with
        Position := { c.Position with y := c.Position.y + c.yVelocity * deltaTime }
        yVelocity := c.yVelocity - GRAVITY * deltaTime }
    else c
  if c1.Position.y < float.finite 2 then
    { c1 with Position := { c1.Position with y := float.finite 2 }, isInAir := false }
  else c1

/-- Method `Camera::GetXZDirection`. -/
def GetXZDirection (M : MathOps float) (front : vec3 float) : vec3 float :=
  normalize M { front with y := float.finite 0 }

/-- The position after the four direction branches of `ProcessKeyboard`, before the
boundary check. -/
def displaced (M : MathOps float) (c : Camera float) (direction : Camera_Movement)
    (deltaTime : float) : vec3 float :=
  let velocity : float :=
    if c.sprintEnabled then c.SprintSpeed * deltaTime else c.MovementSpeed * deltaTime
  let p0 := c.Position
  let p1 := if direction = Camera_Movement.FORWARD then
      add p0 (scale (GetXZDirection M c.Front) velocity) else p0
  let p2 := if direction = Camera_Movement.BACKWARD then
      sub p1 (scale (GetXZDirection M c.Front) velocity) else p1
  let p3 := if direction = Camera_Movement.LEFT then
      sub p2 (scale (GetXZDirection M c.Right) velocity) else p2
  if direction = Camera_Movement.RIGHT then
      add p3 (scale (GetXZDirection M c.Right) velocity) else p3

/-- The four boundary checks that end `ProcessKeyboard`. -/
def checkBoundaries (p4 : vec3 float) : vec3 float :=
  let p5 := if p4.x < BOUNDARY_X1 then { p4 with x := BOUNDARY_X1 } else p4
  let p6 := if p5.x > BOUNDARY_X2 then { p5 with x := BOUNDARY_X2 } else p5
  let p7 := if p6.z < BOUNDARY_Z1 then { p6 with z := BOUNDARY_Z1 } else p6
  if p7.z > BOUNDARY_Z2 then { p7 with z := BOUNDARY_Z2 } else p7

/-- Method `Camera::ProcessKeyboard`. -/
def ProcessKeyboard (M : MathOps float) (c : Camera float) (direction : Camera_Movement)
    (deltaTime : float) : Camera float :=
  let velocity : float :=
    if c.sprintEnabled then c.SprintSpeed * deltaTime else c.MovementSpeed * deltaTime
  let p0 := c.Position
  let p1 := if direction = Camera_Movement.FORWARD then
      add p0 (scale (GetXZDirection M c.Front) velocity) else p0
  let p2 := if direction = Camera_Movement.BACKWARD then
      sub p1 (scale (GetXZDirection M c.Front) velocity) else p1
  let p3 := if direction = Camera_Movement.LEFT then
      sub p2 (scale (GetXZDirection M c.Right) velocity) else p2
  let p4 := if direction = Camera_Movement.RIGHT then
      add p3 (scale (GetXZDirection M c.Right) velocity) else p3
  let p5 := if p4.x < BOUNDARY_X1 then { p4 with x := BOUNDARY_X1 } else p4
  let p6 := if p5.x > BOUNDARY_X2 then { p5 with x := BOUNDARY_X2 } else p5
  let p7 := if p6.z < BOUNDARY_Z1 then { p6 with z := BOUNDARY_Z1 } else p6
  let p8 := if p7.z > BOUNDARY_Z2 then { p7 with z := BOUNDARY_Z2 } else p7
  { c with Position := p8 }

/-- The binary32 value of the literal `1e38f`. -/
def oneE38 : float := float.finite 99999996802856924650656260769173209088

/-- The camera of main.cpp after `ProcessMouseMovement(1800, 0)` has turned it to yaw 0:
at `(0, 2, 7)` on the ground, `Front = (1, 0, 0)`, `Right = (0, 0, 1)`, `Up = (0, 1, 0)`,
sprint off. -/
def yawZeroCamera : Camera float :=
  { Position := ⟨float.finite 0, float.finite 2, float.finite 7⟩
    Front := ⟨float.finite 1, float.finite 0, float.finite 0⟩
    Up := ⟨float.finite 0, float.finite 1, float.finite 0⟩
    Right := ⟨float.finite 0, float.finite 0, float.finite 1⟩
    WorldUp := ⟨float.finite 0, float.finite 1, float.finite 0⟩
    Yaw := float.finite 0
    Pitch := float.finite 0
    MovementSpeed := MOVEMENT_SPEED
    SprintSpeed := SPRINT_SPEED
    MouseSensitivity := float.finite 0.05
    Zoom := float.finite 45
    sprintEnabled := false
    isInAir := false
    yVelocity := float.finite 0 }

end Binary32

/-! ## Auxiliary lemmas: planar movement -/

section PlanarLemmas

variable {α : Type} [LinearOrderedField α]

theorem ProcessKeyboard_eq (M : MathOps α) (c : Camera α) (direction : Camera_Movement)
    (deltaTime : α) :
    ProcessKeyboard M c direction deltaTime
      = { c with Position := checkBoundaries (displaced M c direction deltaTime) } := rfl

theorem checkBoundaries_y (p : vec3 α) : (checkBoundaries p).y = p.y := by
  simp only [checkBoundaries]
  split_ifs <;> rfl

theorem checkBoundaries_x (p : vec3 α) :
    -8.5 ≤ (checkBoundaries p).x ∧ (checkBoundaries p).x ≤ 8.5 := by
  simp only [checkBoundaries, BOUNDARY_X1, BOUNDARY_X2, BOUNDARY_Z1, BOUNDARY_Z2]
  split_ifs <;> constructor <;> norm_num at * <;> linarith

theorem checkBoundaries_z (p : vec3 α) :
    -8.5 ≤ (checkBoundaries p).z ∧ (checkBoundaries p).z ≤ 8.5 := by
  simp only [checkBoundaries, BOUNDARY_X1, BOUNDARY_X2, BOUNDARY_Z1, BOUNDARY_Z2]
  split_ifs <;> constructor <;> norm_num at * <;> linarith

theorem checkBoundaries_inside (p : vec3 α) (hx1 : -8.5 ≤ p.x) (hx2 : p.x ≤ 8.5)
    (hz1 : -8.5 ≤ p.z) (hz2 : p.z ≤ 8.5) : checkBoundaries p = p := by
  simp only [checkBoundaries, BOUNDARY_X1, BOUNDARY_X2, BOUNDARY_Z1, BOUNDARY_Z2]
  rw [if_neg (not_lt.mpr hx1), if_neg (not_lt.mpr hx2), if_neg (not_lt.mpr hz1),
    if_neg (not_lt.mpr hz2)]

theorem displaced_y (M : MathOps α) (c : Camera α) (direction : Camera_Movement)
    (deltaTime : α) : (displaced M c direction deltaTime).y = c.Position.y := by
  cases direction <;>
    simp [displaced, vec3.add, vec3.sub, vec3.scale, GetXZDirection, vec3.normalize]

/-- The displaced position for each of the four directions taken one at a time. -/
theorem displaced_cases (M : MathOps α) (c : Camera α) (deltaTime : α) :
    displaced M c Camera_Movement.FORWARD deltaTime
      = vec3.add c.Position (vec3.scale (GetXZDirection M c.Front)
          (if c.sprintEnabled then c.SprintSpeed * deltaTime else c.MovementSpeed * deltaTime)) ∧
    displaced M c Camera_Movement.BACKWARD deltaTime
      = vec3.sub c.Position (vec3.scale (GetXZDirection M c.Front)
          (if c.sprintEnabled then c.SprintSpeed * deltaTime else c.MovementSpeed * deltaTime)) ∧
    displaced M c Camera_Movement.LEFT deltaTime
      = vec3.sub c.Position (vec3.scale (GetXZDirection M c.Right)
          (if c.sprintEnabled then c.SprintSpeed * deltaTime else c.MovementSpeed * deltaTime)) ∧
    displaced M c Camera_Movement.RIGHT deltaTime
      = vec3.add c.Position (vec3.scale (GetXZDirection M c.Right)
          (if c.sprintEnabled then c.SprintSpeed * deltaTime else c.MovementSpeed * deltaTime)) := by
  refine ⟨?_, ?_, ?_, ?_⟩ <;> simp [displaced]

theorem add_sub_scale (p d : vec3 α) (k : α) :
    vec3.sub (vec3.add p (vec3.scale d k)) (vec3.scale d k) = p := by
  simp [vec3.add, vec3.sub, vec3.scale]

end PlanarLemmas

/-! ## Auxiliary lemmas: vertical motion -/

section VerticalLemmas

variable {α : Type} [LinearOrderedField α]

theorem Update_y_ge_two (c : Camera α) (deltaTime : α) :
    2 ≤ (Update c deltaTime).Position.y := by
  simp only [Update]
  split_ifs <;> first | exact le_rfl | linarith

theorem Jump_grounded_inv (c : Camera α) (h : c.isInAir = false → c.Position.y = 2) :
    (Jump c).isInAir = false → (Jump c).Position.y = 2 := by
  unfold Jump
  split_ifs with hc
  · intro h1; simp at h1
  · exact h

theorem Update_grounded_inv (c : Camera α) (deltaTime : α)
    (h : c.isInAir = false → c.Position.y = 2) :
    (Update c deltaTime).isInAir = false → (Update c deltaTime).Position.y = 2 := by
  simp only [Update]
  split_ifs with h1 h2 h2
  · intro _; rfl
  · intro h3; simp [h1] at h3
  · intro _; rfl
  · exact h

theorem runCalls_grounded_inv (calls : List (VerticalCall α)) (c : Camera α)
    (h : c.isInAir = false → c.Position.y = 2) :
    (runCalls c calls).isInAir = false → (runCalls c calls).Position.y = 2 := by
  induction calls generalizing c with
  | nil => exact h
  | cons call rest ih =>
    cases call with
    | jump => exact ih (Jump c) (Jump_grounded_inv c h)
    | update deltaTime => exact ih (Update c deltaTime) (Update_grounded_inv c deltaTime h)

theorem Update_airborne_of_airborne (c : Camera α) (deltaTime : α)
    (h : (Update c deltaTime).isInAir = true) (hc : c.isInAir = true) :
    (Update c deltaTime).Position.y = c.Position.y + c.yVelocity * deltaTime ∧
    (Update c deltaTime).yVelocity = c.yVelocity - 14 * deltaTime := by
  revert h
  simp only [Update, hc, if_true, GRAVITY]
  split_ifs with h2
  · intro h; simp at h
  · intro _; exact ⟨rfl, rfl⟩

theorem Update_isInAir_of_succ (c : Camera α) (deltaTime : α)
    (h : (Update c deltaTime).isInAir = true) : c.isInAir = true := by
  revert h
  simp only [Update]
  split_ifs with h1 h2 h2
  · intro h; simp at h
  · intro _; exact h1
  · intro h; simp at h
  · intro h; exact h

/-- While the camera stays airborne after a jump from the floor, `k` updates with step
`deltaTime` leave the velocity at `7 - 14 k dt` and the height at
`2 + 7 k dt (1 - dt (k - 1))`. -/
theorem flight_closed_form (c0 : Camera α) (h0 : c0.Position.y = 2) (h0a : c0.isInAir = false)
    (deltaTime : α) (k : ℕ)
    (hk : ((fun s => Update s deltaTime)^[k] (Jump c0)).isInAir = true) :
    ((fun s => Update s deltaTime)^[k] (Jump c0)).yVelocity = 7 - 14 * k * deltaTime ∧
    ((fun s => Update s deltaTime)^[k] (Jump c0)).Position.y
      = 2 + 7 * k * deltaTime * (1 - deltaTime * (k - 1)) := by
  induction k with
  | zero =>
    simp [Jump, h0a, h0, JUMP_INITIAL_VELOCITY]
  | succ k ih =>
    rw [Function.iterate_succ_apply'] at hk ⊢
    have hprev := Update_isInAir_of_succ _ _ hk
    obtain ⟨hv, hy⟩ := ih hprev
    obtain ⟨hy1, hv1⟩ := Update_airborne_of_airborne _ _ hk hprev
    rw [hy1, hv1, hv, hy]
    push_cast
    constructor <;> ring

/-- After a shift event, `sprintEnabled` is the press flag of that event. -/
theorem key_callback_shift_sprint (c : Camera α) (e : ShiftEvent) :
    (key_callback c e.key.code e.action).sprintEnabled = e.press := by
  obtain ⟨k, p⟩ := e
  cases k <;> cases p <;>
    simp [key_callback, ShiftKey.code, ShiftEvent.action, SetSprint, GLFW_KEY_LEFT_SHIFT,
      GLFW_KEY_RIGHT_SHIFT, GLFW_KEY_SPACE, GLFW_PRESS, GLFW_RELEASE]

end VerticalLemmas

/-! ## Auxiliary lemmas: real arithmetic for the basis and the view matrix -/

section RealLemmas

theorem cos_radians_pos (pitch : ℝ) (hlo : -89 ≤ pitch) (hhi : pitch ≤ 89) :
    0 < Real.cos (pitch * (Real.pi / 180)) := by
  apply Real.cos_pos_of_mem_Ioo
  simp only [Set.mem_Ioo]
  have hpi := Real.pi_pos
  constructor <;> nlinarith

theorem normalize_of_dot (v : vec3 ℝ) (k : ℝ) (hk : 0 < k) (h : vec3.dot v v = k ^ 2) :
    vec3.normalize (MathOps.mk Real.cos Real.sin (fun x => 1 / Real.sqrt x) Real.pi) v
      = vec3.scale v (1 / k) := by
  simp only [vec3.normalize, h, Real.sqrt_sq (le_of_lt hk)]

theorem normalize_scale_pos (v : vec3 ℝ) (k : ℝ) (hk : 0 < k) :
    vec3.normalize (MathOps.mk Real.cos Real.sin (fun x => 1 / Real.sqrt x) Real.pi)
        (vec3.scale v k)
      = vec3.normalize (MathOps.mk Real.cos Real.sin (fun x => 1 / Real.sqrt x) Real.pi) v := by
  have hd : vec3.dot (vec3.scale v k) (vec3.scale v k) = k ^ 2 * vec3.dot v v := by
    simp only [vec3.dot, vec3.scale]; ring
  have hk0 : k ≠ 0 := ne_of_gt hk
  simp only [vec3.normalize, hd, Real.sqrt_mul (sq_nonneg k), Real.sqrt_sq (le_of_lt hk)]
  simp only [vec3.scale, vec3.mk.injEq]
  refine ⟨?_, ?_, ?_⟩ <;>
    rw [mul_one_div, mul_one_div, mul_comm k (Real.sqrt _), mul_div_mul_right _ _ hk0]

/-- The basis computed by `updateCameraVectors` in closed form, when the cosine of the
pitch is positive and `WorldUp` is the world Y axis. -/
theorem updateCameraVectors_explicit (c : Camera ℝ) (hup : c.WorldUp = ⟨0, 1, 0⟩)
    (hcp : 0 < Real.cos (c.Pitch * (Real.pi / 180))) :
    (updateCameraVectors (MathOps.mk Real.cos Real.sin (fun x => 1 / Real.sqrt x) Real.pi) c).Front
      = ⟨Real.cos (c.Yaw * (Real.pi / 180)) * Real.cos (c.Pitch * (Real.pi / 180)),
         Real.sin (c.Pitch * (Real.pi / 180)),
         Real.sin (c.Yaw * (Real.pi / 180)) * Real.cos (c.Pitch * (Real.pi / 180))⟩ ∧
    (updateCameraVectors (MathOps.mk Real.cos Real.sin (fun x => 1 / Real.sqrt x) Real.pi) c).Right
      = ⟨-Real.sin (c.Yaw * (Real.pi / 180)), 0, Real.cos (c.Yaw * (Real.pi / 180))⟩ ∧
    (updateCameraVectors (MathOps.mk Real.cos Real.sin (fun x => 1 / Real.sqrt x) Real.pi) c).Up
      = ⟨-(Real.cos (c.Yaw * (Real.pi / 180)) * Real.sin (c.Pitch * (Real.pi / 180))),
         Real.cos (c.Pitch * (Real.pi / 180)),
         -(Real.sin (c.Yaw * (Real.pi / 180)) * Real.sin (c.Pitch * (Real.pi / 180)))⟩ := by
  have hy := Real.sin_sq_add_cos_sq (c.Yaw * (Real.pi / 180))
  have hp := Real.sin_sq_add_cos_sq (c.Pitch * (Real.pi / 180))
  have hF : (updateCameraVectors (MathOps.mk Real.cos Real.sin (fun x => 1 / Real.sqrt x) Real.pi) c).Front
      = ⟨Real.cos (c.Yaw * (Real.pi / 180)) * Real.cos (c.Pitch * (Real.pi / 180)),
         Real.sin (c.Pitch * (Real.pi / 180)),
         Real.sin (c.Yaw * (Real.pi / 180)) * Real.cos (c.Pitch * (Real.pi / 180))⟩ := by
    show vec3.normalize _ (vec3.mk _ _ _) = _
    simp only [radians]
    rw [normalize_of_dot _ 1 one_pos]
    · simp [vec3.scale]
    · simp only [vec3.dot]
      linear_combination (Real.cos (c.Pitch * (Real.pi / 180))) ^ 2 * hy + hp
  have hR : (updateCameraVectors (MathOps.mk Real.cos Real.sin (fun x => 1 / Real.sqrt x) Real.pi) c).Right
      = ⟨-Real.sin (c.Yaw * (Real.pi / 180)), 0, Real.cos (c.Yaw * (Real.pi / 180))⟩ := by
    show vec3.normalize _ (vec3.cross
      (updateCameraVectors (MathOps.mk Real.cos Real.sin (fun x => 1 / Real.sqrt x) Real.pi) c).Front
      c.WorldUp) = _
    rw [hF, hup, normalize_of_dot _ (Real.cos (c.Pitch * (Real.pi / 180))) hcp]
    · have hne : Real.cos (c.Pitch * (Real.pi / 180)) ≠ 0 := ne_of_gt hcp
      simp only [vec3.scale, vec3.cross, vec3.mk.injEq]
      refine ⟨?_, ?_, ?_⟩
      · rw [mul_one_div, div_eq_iff hne]; ring
      · ring
      · rw [mul_one_div, div_eq_iff hne]; ring
    · simp only [vec3.dot, vec3.cross]
      linear_combination (Real.cos (c.Pitch * (Real.pi / 180))) ^ 2 * hy
  refine ⟨hF, hR, ?_⟩
  show vec3.normalize _ (vec3.cross
      (updateCameraVectors (MathOps.mk Real.cos Real.sin (fun x => 1 / Real.sqrt x) Real.pi) c).Right
      (updateCameraVectors (MathOps.mk Real.cos Real.sin (fun x => 1 / Real.sqrt x) Real.pi) c).Front) = _
  rw [hF, hR, normalize_of_dot _ 1 one_pos]
  · simp only [vec3.scale, vec3.cross, vec3.mk.injEq]
    refine ⟨?_, ?_, ?_⟩
    · ring
    · linear_combination (Real.cos (c.Pitch * (Real.pi / 180))) * hy
    · ring
  · simp only [vec3.dot, vec3.cross]
    linear_combination
      ((Real.sin (c.Pitch * (Real.pi / 180))) ^ 2
        + (Real.cos (c.Pitch * (Real.pi / 180))) ^ 2
          * ((Real.sin (c.Yaw * (Real.pi / 180))) ^ 2
            + (Real.cos (c.Yaw * (Real.pi / 180))) ^ 2 + 1)) * hy + hp

/-- The basis computed by `updateCameraVectors` is orthonormal when `WorldUp` is the
world Y axis and the pitch of the state lies in `[-89, 89]`. -/
theorem orthonormal_of_pitch_range (c : Camera ℝ) (hup : c.WorldUp = ⟨0, 1, 0⟩)
    (hlo : -89 ≤ c.Pitch) (hhi : c.Pitch ≤ 89) :
    OrthonormalBasis
      (updateCameraVectors (MathOps.mk Real.cos Real.sin (fun x => 1 / Real.sqrt x) Real.pi) c) := by
  have hcp := cos_radians_pos c.Pitch hlo hhi
  obtain ⟨hF, hR, hU⟩ := updateCameraVectors_explicit c hup hcp
  have hy := Real.sin_sq_add_cos_sq (c.Yaw * (Real.pi / 180))
  have hp := Real.sin_sq_add_cos_sq (c.Pitch * (Real.pi / 180))
  simp only [OrthonormalBasis, hF, hR, hU, vec3.dot]
  have one : ∀ t : ℝ, t = 1 → Real.sqrt t = 1 := by
    intro t ht; rw [ht, Real.sqrt_one]
  refine ⟨one _ ?_, one _ ?_, one _ ?_, ?_, ?_, ?_⟩
  · linear_combination (Real.cos (c.Pitch * (Real.pi / 180))) ^ 2 * hy + hp
  · linear_combination hy
  · linear_combination (Real.sin (c.Pitch * (Real.pi / 180))) ^ 2 * hy + hp
  · ring
  · linear_combination
      (-(Real.sin (c.Pitch * (Real.pi / 180)) * Real.cos (c.Pitch * (Real.pi / 180)))) * hy
  · ring

theorem calculate_lookAt_matrix_rows {α : Type} [LinearOrderedField α] (M : MathOps α)
    (position target worldUp : vec3 α) :
    calculate_lookAt_matrix M position target worldUp
      = rowsMatrix
          (vec3.normalize M (vec3.cross (vec3.normalize M worldUp)
            (vec3.normalize M (vec3.sub position target))))
          (vec3.cross (vec3.normalize M (vec3.sub position target))
            (vec3.normalize M (vec3.cross (vec3.normalize M worldUp)
              (vec3.normalize M (vec3.sub position target)))))
          (vec3.normalize M (vec3.sub position target))
          position := by
  funext c r
  fin_cases c <;> fin_cases r <;>
    simp [calculate_lookAt_matrix, rowsMatrix, mat4.mul, mat4.set, mat4.identity, vec3.dot] <;>
    ring

theorem lookAt_rows {α : Type} [LinearOrderedField α] (M : MathOps α)
    (eye target up : vec3 α) :
    lookAt M eye target up
      = rowsMatrix
          (vec3.normalize M (vec3.cross (vec3.normalize M (vec3.sub target eye)) up))
          (vec3.cross (vec3.normalize M (vec3.cross (vec3.normalize M (vec3.sub target eye)) up))
            (vec3.normalize M (vec3.sub target eye)))
          (vec3.scale (vec3.normalize M (vec3.sub target eye)) (-1))
          eye := by
  funext c r
  fin_cases c <;> fin_cases r <;>
    simp [lookAt, rowsMatrix, vec3.dot, vec3.scale]
  ring

theorem dot_pos_of_cross_ne_zero (d up : vec3 ℝ) (h : vec3.cross d up ≠ ⟨0, 0, 0⟩) :
    0 < vec3.dot up up := by
  by_contra hn
  apply h
  have h0 : up.x * up.x + up.y * up.y + up.z * up.z ≤ 0 := by
    simpa [vec3.dot] using hn
  have hx : up.x = 0 := by nlinarith [mul_self_nonneg up.x, mul_self_nonneg up.y, mul_self_nonneg up.z]
  have hy : up.y = 0 := by nlinarith [mul_self_nonneg up.x, mul_self_nonneg up.y, mul_self_nonneg up.z]
  have hz : up.z = 0 := by nlinarith [mul_self_nonneg up.x, mul_self_nonneg up.y, mul_self_nonneg up.z]
  simp [vec3.cross, hx, hy, hz]

theorem lookAt_axes_agree (position target worldUp : vec3 ℝ)
    (h : vec3.cross (vec3.sub target position) worldUp ≠ ⟨0, 0, 0⟩) :
    calculate_lookAt_matrix (MathOps.mk Real.cos Real.sin (fun x => 1 / Real.sqrt x) Real.pi)
        position target worldUp
      = lookAt (MathOps.mk Real.cos Real.sin (fun x => 1 / Real.sqrt x) Real.pi)
        position target worldUp := by
  have hup := dot_pos_of_cross_ne_zero _ _ h
  have hk : 0 < 1 / Real.sqrt (vec3.dot worldUp worldUp) :=
    one_div_pos.mpr (Real.sqrt_pos.mpr hup)
  have hz : vec3.normalize (MathOps.mk Real.cos Real.sin (fun x => 1 / Real.sqrt x) Real.pi)
        (vec3.sub position target)
      = vec3.scale (vec3.normalize
          (MathOps.mk Real.cos Real.sin (fun x => 1 / Real.sqrt x) Real.pi)
          (vec3.sub target position)) (-1) := by
    have hd : vec3.dot (vec3.sub position target) (vec3.sub position target)
        = vec3.dot (vec3.sub target position) (vec3.sub target position) := by
      simp only [vec3.dot, vec3.sub]; ring
    simp only [vec3.normalize, hd]
    simp only [vec3.scale, vec3.sub, vec3.mk.injEq]
    refine ⟨?_, ?_, ?_⟩ <;> ring
  have hx : vec3.normalize (MathOps.mk Real.cos Real.sin (fun x => 1 / Real.sqrt x) Real.pi)
        (vec3.cross
          (vec3.normalize (MathOps.mk Real.cos Real.sin (fun x => 1 / Real.sqrt x) Real.pi) worldUp)
          (vec3.normalize (MathOps.mk Real.cos Real.sin (fun x => 1 / Real.sqrt x) Real.pi)
            (vec3.sub position target)))
      = vec3.normalize (MathOps.mk Real.cos Real.sin (fun x => 1 / Real.sqrt x) Real.pi)
        (vec3.cross
          (vec3.normalize (MathOps.mk Real.cos Real.sin (fun x => 1 / Real.sqrt x) Real.pi)
            (vec3.sub target position)) worldUp) := by
    rw [hz, ← normalize_scale_pos (vec3.cross _ worldUp) _ hk]
    congr 1
    simp only [vec3.normalize, vec3.scale, vec3.cross, vec3.mk.injEq]
    refine ⟨?_, ?_, ?_⟩ <;> ring
  have hcr : ∀ a b : vec3 ℝ, vec3.cross (vec3.scale a (-1)) b = vec3.cross b a := by
    intro a b
    simp only [vec3.scale, vec3.cross, vec3.mk.injEq]
    refine ⟨?_, ?_, ?_⟩ <;> ring
  rw [calculate_lookAt_matrix_rows, lookAt_rows, hx, hz, hcr]

/-- Normalising a unit vector returns it. -/
theorem normalize_unit (v : vec3 ℝ) (h : vec3.dot v v = 1) :
    vec3.normalize (MathOps.mk Real.cos Real.sin (fun x => 1 / Real.sqrt x) Real.pi) v = v := by
  rw [normalize_of_dot v 1 one_pos (by rw [h]; norm_num)]
  simp [vec3.scale]

/-- Over the reals the camera constructed in main.cpp is exactly `groundedExample`: yaw
-90 and pitch 0 give `Front = (0, 0, -1)`, `Right = (1, 0, 0)`, `Up = (0, 1, 0)`. -/
theorem mainCamera_eq :
    mainCamera (MathOps.mk Real.cos Real.sin (fun x => 1 / Real.sqrt x) Real.pi)
      = (groundedExample : Camera ℝ) := by
  have hyaw : (-90 : ℝ) * (Real.pi / 180) = -(Real.pi / 2) := by ring
  have hcp : (0 : ℝ) < Real.cos ((0 : ℝ) * (Real.pi / 180)) := by
    rw [zero_mul, Real.cos_zero]; exact one_pos
  obtain ⟨hF, hR, hU⟩ := updateCameraVectors_explicit
    ({ Position := ⟨0, 2, 7⟩, Front := ⟨0, 0, -1⟩, Up := ⟨0, 0, 0⟩, Right := ⟨0, 0, 0⟩,
       WorldUp := ⟨0, 1, 0⟩, Yaw := -90, Pitch := 0, MovementSpeed := MOVEMENT_SPEED,
       SprintSpeed := SPRINT_SPEED, MouseSensitivity := SENSITIVITY, Zoom := ZOOM,
       sprintEnabled := false, isInAir := false, yVelocity := 0 } : Camera ℝ) rfl hcp
  simp only [hyaw, zero_mul, Real.cos_neg, Real.sin_neg, Real.cos_pi_div_two,
    Real.sin_pi_div_two, Real.cos_zero, Real.sin_zero, mul_one, mul_zero, neg_zero,
    zero_mul] at hF hR hU
  have hsplit : ∀ c : Camera ℝ,
      updateCameraVectors (MathOps.mk Real.cos Real.sin (fun x => 1 / Real.sqrt x) Real.pi) c
        = { c with
            Front := (updateCameraVectors
              (MathOps.mk Real.cos Real.sin (fun x => 1 / Real.sqrt x) Real.pi) c).Front
            Right := (updateCameraVectors
              (MathOps.mk Real.cos Real.sin (fun x => 1 / Real.sqrt x) Real.pi) c).Right
            Up := (updateCameraVectors
              (MathOps.mk Real.cos Real.sin (fun x => 1 / Real.sqrt x) Real.pi) c).Up } :=
    fun _ => rfl
  unfold mainCamera Camera.new
  simp only [YAW, PITCH]
  rw [hsplit, hF, hR, hU]
  simp [groundedExample]

/-- The horizontal directions used by `ProcessKeyboard`, in closed form, for a basis
computed by `updateCameraVectors` with a positive cosine of the pitch. -/
theorem GetXZDirection_explicit (c : Camera ℝ) (hup : c.WorldUp = ⟨0, 1, 0⟩)
    (hcp : 0 < Real.cos (c.Pitch * (Real.pi / 180))) :
    GetXZDirection (MathOps.mk Real.cos Real.sin (fun x => 1 / Real.sqrt x) Real.pi)
        (updateCameraVectors
          (MathOps.mk Real.cos Real.sin (fun x => 1 / Real.sqrt x) Real.pi) c).Front
      = ⟨Real.cos (c.Yaw * (Real.pi / 180)), 0, Real.sin (c.Yaw * (Real.pi / 180))⟩ ∧
    GetXZDirection (MathOps.mk Real.cos Real.sin (fun x => 1 / Real.sqrt x) Real.pi)
        (updateCameraVectors
          (MathOps.mk Real.cos Real.sin (fun x => 1 / Real.sqrt x) Real.pi) c).Right
      = ⟨-Real.sin (c.Yaw * (Real.pi / 180)), 0, Real.cos (c.Yaw * (Real.pi / 180))⟩ := by
  obtain ⟨hF, hR, -⟩ := updateCameraVectors_explicit c hup hcp
  have hy := Real.sin_sq_add_cos_sq (c.Yaw * (Real.pi / 180))
  have hne : Real.cos (c.Pitch * (Real.pi / 180)) ≠ 0 := ne_of_gt hcp
  constructor
  · rw [hF]
    simp only [GetXZDirection]
    rw [normalize_of_dot _ (Real.cos (c.Pitch * (Real.pi / 180))) hcp]
    · simp only [vec3.scale, vec3.mk.injEq]
      refine ⟨?_, ?_, ?_⟩
      · rw [mul_one_div, mul_div_assoc, div_self hne, mul_one]
      · ring
      · rw [mul_one_div, mul_div_assoc, div_self hne, mul_one]
    · simp only [vec3.dot]
      linear_combination (Real.cos (c.Pitch * (Real.pi / 180))) ^ 2 * hy
  · rw [hR]
    simp only [GetXZDirection]
    apply normalize_unit
    simp only [vec3.dot]
    linear_combination hy

/-- A step of signed length `vel` along a unit vector has magnitude `|vel|`, forwards or
backwards. -/
theorem step_magnitude (p d : vec3 ℝ) (vel : ℝ) (hd : vec3.dot d d = 1) :
    Real.sqrt (vec3.dot (vec3.sub (vec3.add p (vec3.scale d vel)) p)
      (vec3.sub (vec3.add p (vec3.scale d vel)) p)) = |vel| ∧
    Real.sqrt (vec3.dot (vec3.sub (vec3.sub p (vec3.scale d vel)) p)
      (vec3.sub (vec3.sub p (vec3.scale d vel)) p)) = |vel| := by
  have h1 : vec3.dot (vec3.sub (vec3.add p (vec3.scale d vel)) p)
      (vec3.sub (vec3.add p (vec3.scale d vel)) p) = vel ^ 2 := by
    simp only [vec3.dot, vec3.sub, vec3.add, vec3.scale] at hd ⊢
    linear_combination vel ^ 2 * hd
  have h2 : vec3.dot (vec3.sub (vec3.sub p (vec3.scale d vel)) p)
      (vec3.sub (vec3.sub p (vec3.scale d vel)) p) = vel ^ 2 := by
    simp only [vec3.dot, vec3.sub, vec3.add, vec3.scale] at hd ⊢
    linear_combination vel ^ 2 * hd
  rw [h1, h2, Real.sqrt_sq_eq_abs]
  exact ⟨rfl, rfl⟩

/-- The matrix with rows `(a, -dot a p)` sends the homogeneous point `(q, 1)` to the
coordinates of `q - p` along `x`, `y`, `z`. -/
theorem rowsMatrix_mulVec {α : Type} [LinearOrderedField α] (x y z p q : vec3 α) :
    mat4.mulVec (rowsMatrix x y z p) ![q.x, q.y, q.z, 1]
      = ![vec3.dot x (vec3.sub q p), vec3.dot y (vec3.sub q p),
          vec3.dot z (vec3.sub q p), 1] := by
  funext r
  fin_cases r <;> simp [mat4.mulVec, rowsMatrix, vec3.dot, vec3.sub] <;> ring

/-- With a unit `front`, the matrix built for eye `p` and target `p + front` sends the eye
to the origin and the target to `(0, 0, -1)`, whatever the up vector. -/
theorem lookAt_unit_front (p front up : vec3 ℝ) (hFF : vec3.dot front front = 1) :
    mat4.mulVec
      (calculate_lookAt_matrix (MathOps.mk Real.cos Real.sin (fun x => 1 / Real.sqrt x) Real.pi)
        p (vec3.add p front) up)
      ![p.x, p.y, p.z, 1] = ![0, 0, 0, 1] ∧
    mat4.mulVec
      (calculate_lookAt_matrix (MathOps.mk Real.cos Real.sin (fun x => 1 / Real.sqrt x) Real.pi)
        p (vec3.add p front) up)
      ![(vec3.add p front).x, (vec3.add p front).y, (vec3.add p front).z, 1]
      = ![0, 0, -1, 1] := by
  have hsub : vec3.sub p (vec3.add p front) = vec3.scale front (-1) := by
    simp only [vec3.sub, vec3.add, vec3.scale, vec3.mk.injEq]
    refine ⟨?_, ?_, ?_⟩ <;> ring
  have hz : vec3.normalize (MathOps.mk Real.cos Real.sin (fun x => 1 / Real.sqrt x) Real.pi)
      (vec3.sub p (vec3.add p front)) = vec3.scale front (-1) := by
    rw [hsub]
    apply normalize_unit
    simp only [vec3.dot, vec3.scale] at hFF ⊢
    linear_combination hFF
  have hpp : vec3.sub p p = ⟨0, 0, 0⟩ := by simp [vec3.sub]
  have hqp : vec3.sub (vec3.add p front) p = front := by simp [vec3.sub, vec3.add]
  have hzero : ∀ a : vec3 ℝ, vec3.dot a ⟨0, 0, 0⟩ = 0 := by
    intro a; simp [vec3.dot]
  rw [calculate_lookAt_matrix_rows, rowsMatrix_mulVec, rowsMatrix_mulVec, hpp, hqp, hz]
  simp only [hzero]
  refine ⟨trivial, ?_⟩
  have e1 : vec3.dot (vec3.normalize
      (MathOps.mk Real.cos Real.sin (fun x => 1 / Real.sqrt x) Real.pi)
      (vec3.cross (vec3.normalize
        (MathOps.mk Real.cos Real.sin (fun x => 1 / Real.sqrt x) Real.pi) up)
        (vec3.scale front (-1)))) front = 0 := by
    simp only [vec3.normalize, vec3.scale, vec3.cross, vec3.dot]
    ring
  have e2 : vec3.dot (vec3.cross (vec3.scale front (-1)) (vec3.normalize
      (MathOps.mk Real.cos Real.sin (fun x => 1 / Real.sqrt x) Real.pi)
      (vec3.cross (vec3.normalize
        (MathOps.mk Real.cos Real.sin (fun x => 1 / Real.sqrt x) Real.pi) up)
        (vec3.scale front (-1))))) front = 0 := by
    simp only [vec3.scale, vec3.cross, vec3.dot]
    ring
  have e3 : vec3.dot (vec3.scale front (-1)) front = -1 := by
    simp only [vec3.dot, vec3.scale] at hFF ⊢
    linear_combination -hFF
  rw [e1, e2, e3]

end RealLemmas

/-! ## Auxiliary lemmas: the special values of `float` -/

section FloatLemmas

theorem float_add_def (a b : float) : a + b = float.add a b := rfl
theorem float_sub_def (a b : float) : a - b = float.add a (float.neg b) := rfl
theorem float_mul_def (a b : float) : a * b = float.mul a b := rfl
theorem float_lt_def (a b : float) : (a < b) = (float.lt a b = true) := rfl
theorem float_le_def (a b : float) : (a ≤ b) = (float.le a b = true) := rfl

/-- A value that fails the test `y < 2` is NaN or at least 2. -/
theorem float_nan_or_two_le (y : float) (h : ¬ (y < float.finite 2)) :
    y = float.NaN ∨ float.finite 2 ≤ y := by
  cases y with
  | finite q =>
    right
    simp only [float_lt_def, float.lt, decide_eq_true_eq] at h
    simp only [float_le_def, float.le, decide_eq_true_eq]
    exact not_lt.mp h
  | posInf => right; rfl
  | negInf => exact absurd rfl h
  | NaN => left; rfl

/-- Zero times any value, times any value, is zero or NaN. -/
theorem float_zero_mul_mul (k vel : float) :
    (float.finite 0 * k) * vel = float.finite 0 ∨ (float.finite 0 * k) * vel = float.NaN := by
  cases k <;> cases vel <;>
    norm_num [float_mul_def, float.mul, float.mulInf, float.ofRat, float.overflowBound]

/-- Zero times a finite value, times a finite value, is zero. -/
theorem float_zero_mul_mul_finite (a b : ℚ) :
    (float.finite 0 * float.finite a) * float.finite b = float.finite 0 := by
  norm_num [float_mul_def, float.mul, float.ofRat, float.overflowBound]

/-- Adding or subtracting zero leaves a value of the type as it is. -/
theorem float_add_zero_valid (y : float) (h : float.valid y) :
    y + float.finite 0 = y ∧ y - float.finite 0 = y := by
  cases y with
  | finite q =>
    obtain ⟨h1, h2⟩ := h
    simp only [float_add_def, float_sub_def, float.add, float.neg, float.ofRat, add_zero,
      neg_zero]
    rw [if_neg (not_le.mpr h2), if_neg (not_le.mpr h1)]
    exact ⟨rfl, rfl⟩
  | posInf => exact ⟨rfl, rfl⟩
  | negInf => exact ⟨rfl, rfl⟩
  | NaN => exact ⟨rfl, rfl⟩

/-- Adding or subtracting NaN gives NaN. -/
theorem float_add_nan (y : float) : y + float.NaN = float.NaN ∧ y - float.NaN = float.NaN := by
  cases y <;> exact ⟨rfl, rfl⟩

theorem binary32_ProcessKeyboard_eq (M : MathOps float) (c : Camera float)
    (direction : Camera_Movement) (deltaTime : float) :
    Binary32.ProcessKeyboard M c direction deltaTime
      = { c with Position :=
            Binary32.checkBoundaries (Binary32.displaced M c direction deltaTime) } := rfl

theorem binary32_checkBoundaries_y (p : vec3 float) :
    (Binary32.checkBoundaries p).y = p.y := by
  simp only [Binary32.checkBoundaries]
  split_ifs <;> rfl

theorem float_lt_finite (a b : ℚ) : (float.finite a < float.finite b) ↔ a < b := by
  simp [float_lt_def, float.lt]

theorem float_le_finite (a b : ℚ) : (float.finite a ≤ float.finite b) ↔ a ≤ b := by
  simp [float_le_def, float.le]

/-- The two tests applied to one coordinate by the boundary check: the result is NaN or
in `[lo, hi]`, and it is NaN exactly when the coordinate was. -/
theorem float_clamp_spec (lo hi : ℚ) (hlh : lo ≤ hi) (x : float) :
    ((if (if x < float.finite lo then float.finite lo else x) > float.finite hi
        then float.finite hi
        else (if x < float.finite lo then float.finite lo else x)) = float.NaN ∨
      (float.finite lo ≤
          (if (if x < float.finite lo then float.finite lo else x) > float.finite hi
            then float.finite hi
            else (if x < float.finite lo then float.finite lo else x)) ∧
        (if (if x < float.finite lo then float.finite lo else x) > float.finite hi
            then float.finite hi
            else (if x < float.finite lo then float.finite lo else x))
          ≤ float.finite hi)) ∧
    ((if (if x < float.finite lo then float.finite lo else x) > float.finite hi
        then float.finite hi
        else (if x < float.finite lo then float.finite lo else x)) = float.NaN
      ↔ x = float.NaN) := by
  have hlo : ¬ (float.finite lo > float.finite hi) := by
    rw [gt_iff_lt, float_lt_finite]; exact not_lt.mpr hlh
  have ell : float.finite lo ≤ float.finite lo := (float_le_finite _ _).2 le_rfl
  have ehh : float.finite hi ≤ float.finite hi := (float_le_finite _ _).2 le_rfl
  have elh : float.finite lo ≤ float.finite hi := (float_le_finite _ _).2 hlh
  cases x with
  | finite q =>
    by_cases h1 : q < lo
    · have e1 : float.finite q < float.finite lo := (float_lt_finite _ _).2 h1
      simp only [if_pos e1, if_neg hlo]
      exact ⟨Or.inr ⟨ell, elh⟩, by simp⟩
    · have e1 : ¬ (float.finite q < float.finite lo) := fun h => h1 ((float_lt_finite _ _).1 h)
      simp only [if_neg e1]
      by_cases h2 : hi < q
      · have e2 : float.finite q > float.finite hi := (float_lt_finite _ _).2 h2
        simp only [if_pos e2]
        exact ⟨Or.inr ⟨elh, ehh⟩, by simp⟩
      · have e2 : ¬ (float.finite q > float.finite hi) :=
          fun h => h2 ((float_lt_finite _ _).1 h)
        simp only [if_neg e2]
        exact ⟨Or.inr ⟨(float_le_finite _ _).2 (not_lt.mp h1),
          (float_le_finite _ _).2 (not_lt.mp h2)⟩, by simp⟩
  | posInf =>
    have e1 : ¬ (float.posInf < float.finite lo) := by simp [float_lt_def, float.lt]
    have e2 : float.posInf > float.finite hi := by
      rw [gt_iff_lt]; simp [float_lt_def, float.lt]
    simp only [if_neg e1, if_pos e2]
    exact ⟨Or.inr ⟨elh, ehh⟩, by simp⟩
  | negInf =>
    have e1 : float.negInf < float.finite lo := by simp [float_lt_def, float.lt]
    simp only [if_pos e1, if_neg hlo]
    exact ⟨Or.inr ⟨ell, elh⟩, by simp⟩
  | NaN =>
    have e1 : ¬ (float.NaN < float.finite lo) := by simp [float_lt_def, float.lt]
    have e2 : ¬ (float.NaN > float.finite hi) := by
      rw [gt_iff_lt]; simp [float_lt_def, float.lt]
    simp only [if_neg e1, if_neg e2]
    exact ⟨Or.inl trivial, by simp⟩

theorem binary32_checkBoundaries_x_eq (p : vec3 float) :
    (Binary32.checkBoundaries p).x
      = (if (if p.x < float.finite (-8.5) then float.finite (-8.5) else p.x) > float.finite 8.5
          then float.finite 8.5
          else (if p.x < float.finite (-8.5) then float.finite (-8.5) else p.x)) := by
  simp only [Binary32.checkBoundaries, Binary32.BOUNDARY_X1, Binary32.BOUNDARY_X2,
    Binary32.BOUNDARY_Z1, Binary32.BOUNDARY_Z2]
  split_ifs <;> simp_all

theorem binary32_checkBoundaries_z_eq (p : vec3 float) :
    (Binary32.checkBoundaries p).z
      = (if (if p.z < float.finite (-8.5) then float.finite (-8.5) else p.z) > float.finite 8.5
          then float.finite 8.5
          else (if p.z < float.finite (-8.5) then float.finite (-8.5) else p.z)) := by
  simp only [Binary32.checkBoundaries, Binary32.BOUNDARY_X1, Binary32.BOUNDARY_X2,
    Binary32.BOUNDARY_Z1, Binary32.BOUNDARY_Z2]
  split_ifs <;> simp_all

/-- Zero times any value, times an infinity, is NaN. -/
theorem float_zero_mul_mul_posInf (k : float) :
    (float.finite 0 * k) * float.posInf = float.NaN := by
  cases k <;>
    norm_num [float_mul_def, float.mul, float.mulInf, float.ofRat, float.overflowBound]

/-- The y component of the displaced position, direction by direction. -/
theorem binary32_displaced_y (M : MathOps float) (c : Camera float)
    (direction : Camera_Movement) (deltaTime : float) :
    (Binary32.displaced M c direction deltaTime).y
      = match direction with
        | Camera_Movement.FORWARD =>
          c.Position.y + (float.finite 0 * M.inversesqrt (Binary32.dot
              { c.Front with y := float.finite 0 } { c.Front with y := float.finite 0 }))
            * (if c.sprintEnabled then c.SprintSpeed * deltaTime
               else c.MovementSpeed * deltaTime)
        | Camera_Movement.BACKWARD =>
          c.Position.y - (float.finite 0 * M.inversesqrt (Binary32.dot
              { c.Front with y := float.finite 0 } { c.Front with y := float.finite 0 }))
            * (if c.sprintEnabled then c.SprintSpeed * deltaTime
               else c.MovementSpeed * deltaTime)
        | Camera_Movement.LEFT =>
          c.Position.y - (float.finite 0 * M.inversesqrt (Binary32.dot
              { c.Right with y := float.finite 0 } { c.Right with y := float.finite 0 }))
            * (if c.sprintEnabled then c.SprintSpeed * deltaTime
               else c.MovementSpeed * deltaTime)
        | Camera_Movement.RIGHT =>
          c.Position.y + (float.finite 0 * M.inversesqrt (Binary32.dot
              { c.Right with y := float.finite 0 } { c.Right with y := float.finite 0 }))
            * (if c.sprintEnabled then c.SprintSpeed * deltaTime
               else c.MovementSpeed * deltaTime) := by
  cases direction <;>
    simp [Binary32.displaced, Binary32.add, Binary32.sub, Binary32.scale,
      Binary32.GetXZDirection, Binary32.normalize]

end FloatLemmas

/-! ## The claims -/

section Claims

variable {α : Type} [LinearOrderedField α]

/-- Claim C1. With `WorldUp = (0, 1, 0)`, any yaw and a pitch in `[-89, 89]` degrees, the
`Front`, `Right` and `Up` vectors computed by `updateCameraVectors` have length 1 and are
pairwise orthogonal, over real arithmetic; so has the basis left by `ProcessMouseMovement`
with the pitch constraint (whatever the prior pitch) and by both constructors. -/
theorem updateCameraVectors_orthonormal (c : Camera ℝ) (yaw pitch : ℝ)
    (hup : c.WorldUp = ⟨0, 1, 0⟩) (hlo : -89 ≤ pitch) (hhi : pitch ≤ 89) :
    OrthonormalBasis
      (updateCameraVectors (MathOps.mk Real.cos Real.sin (fun x => 1 / Real.sqrt x) Real.pi)
        { c with Yaw := yaw, Pitch := pitch }) ∧
    (∀ xoffset yoffset : ℝ, OrthonormalBasis
      (ProcessMouseMovement (MathOps.mk Real.cos Real.sin (fun x => 1 / Real.sqrt x) Real.pi)
        c xoffset yoffset true)) ∧
    (∀ position : vec3 ℝ, OrthonormalBasis
      (Camera.new (MathOps.mk Real.cos Real.sin (fun x => 1 / Real.sqrt x) Real.pi)
        position ⟨0, 1, 0⟩ yaw pitch)) ∧
    (∀ posX posY posZ : ℝ, OrthonormalBasis
      (Camera.newScalars (MathOps.mk Real.cos Real.sin (fun x => 1 / Real.sqrt x) Real.pi)
        posX posY posZ 0 1 0 yaw pitch)) := by
  refine ⟨orthonormal_of_pitch_range _ hup hlo hhi, ?_, ?_, ?_⟩
  · intro xoffset yoffset
    refine orthonormal_of_pitch_range _ hup ?_ ?_
    · show (-89 : ℝ) ≤ if (if c.Pitch + yoffset * c.MouseSensitivity > 89 then 89
          else c.Pitch + yoffset * c.MouseSensitivity) < -89 then -89
        else (if c.Pitch + yoffset * c.MouseSensitivity > 89 then 89
          else c.Pitch + yoffset * c.MouseSensitivity)
      split_ifs <;> linarith
    · show (if (if c.Pitch + yoffset * c.MouseSensitivity > 89 then 89
          else c.Pitch + yoffset * c.MouseSensitivity) < -89 then -89
        else (if c.Pitch + yoffset * c.MouseSensitivity > 89 then 89
          else c.Pitch + yoffset * c.MouseSensitivity)) ≤ (89 : ℝ)
      split_ifs <;> linarith
  · intro position
    exact orthonormal_of_pitch_range _ rfl hlo hhi
  · intro posX posY posZ
    exact orthonormal_of_pitch_range _ rfl hlo hhi

/-- Instance of claim C1 at the pose of the camera of main.cpp (yaw -90, pitch 0). -/
theorem updateCameraVectors_orthonormal_witness :
    (groundedExample : Camera ℝ).WorldUp = ⟨0, 1, 0⟩ ∧ (-89 : ℝ) ≤ 0 ∧ (0 : ℝ) ≤ 89 ∧
    OrthonormalBasis
      (updateCameraVectors (MathOps.mk Real.cos Real.sin (fun x => 1 / Real.sqrt x) Real.pi)
        { (groundedExample : Camera ℝ) with Yaw := -90, Pitch := 0 }) :=
  ⟨rfl, by norm_num, by norm_num,
    (updateCameraVectors_orthonormal groundedExample (-90) 0 rfl
      (by norm_num) (by norm_num)).1⟩

/-- Claim C2 fails as stated. In the float model, from the camera turned to yaw 0,
`ProcessKeyboard(FORWARD, 1e38f)` has velocity `7e38 = inf`; the z step is
`0 * inversesqrt(1) * inf = NaN` whatever `inversesqrt` returns, `7 + NaN = NaN` passes
all boundary tests, and `Position.z` is left NaN, outside `[-8.5, 8.5]`. With
`inversesqrt(1) = 1` the position is `(8.5, NaN, NaN)`. -/
theorem position_nan_passes_boundary :
    Binary32.yawZeroCamera.Position = ⟨float.finite 0, float.finite 2, float.finite 7⟩ ∧
    (∀ M : MathOps float,
      (Binary32.ProcessKeyboard M Binary32.yawZeroCamera Camera_Movement.FORWARD
        Binary32.oneE38).Position.z = float.NaN) ∧
    ¬ (float.finite (-8.5) ≤ float.NaN) ∧ ¬ (float.NaN ≤ float.finite 8.5) ∧
    (∀ M : MathOps float, M.inversesqrt (float.finite 1) = float.finite 1 →
      (Binary32.ProcessKeyboard M Binary32.yawZeroCamera Camera_Movement.FORWARD
        Binary32.oneE38).Position = ⟨float.finite 8.5, float.NaN, float.NaN⟩) := by
  have hv : Binary32.MOVEMENT_SPEED * Binary32.oneE38 = float.posInf := by
    norm_num [Binary32.MOVEMENT_SPEED, Binary32.oneE38, float_mul_def, float.mul,
      float.ofRat, float.overflowBound]
  have hdot : Binary32.dot
      ({ Binary32.yawZeroCamera.Front with y := float.finite 0 } : vec3 float)
      { Binary32.yawZeroCamera.Front with y := float.finite 0 } = float.finite 1 := by
    norm_num [Binary32.dot, Binary32.yawZeroCamera, float_add_def, float_mul_def, float.add,
      float.mul, float.ofRat, float.overflowBound]
  have hz : ∀ M : MathOps float,
      (Binary32.displaced M Binary32.yawZeroCamera Camera_Movement.FORWARD
        Binary32.oneE38).z = float.NaN := by
    intro M
    have e : (Binary32.displaced M Binary32.yawZeroCamera Camera_Movement.FORWARD
        Binary32.oneE38).z
        = float.finite 7 + (float.finite 0 * M.inversesqrt (Binary32.dot
            ({ Binary32.yawZeroCamera.Front with y := float.finite 0 } : vec3 float)
            { Binary32.yawZeroCamera.Front with y := float.finite 0 }))
          * (Binary32.MOVEMENT_SPEED * Binary32.oneE38) := by
      simp [Binary32.displaced, Binary32.add, Binary32.scale, Binary32.GetXZDirection,
        Binary32.normalize, Binary32.yawZeroCamera]
    rw [e, hv, float_zero_mul_mul_posInf]
    rfl
  refine ⟨rfl, ?_, by simp [float_le_def, float.le], by simp [float_le_def, float.le], ?_⟩
  · intro M
    rw [binary32_ProcessKeyboard_eq]
    show (Binary32.checkBoundaries _).z = float.NaN
    rw [binary32_checkBoundaries_z_eq, (float_clamp_spec (-8.5) 8.5 (by norm_num) _).2]
    exact hz M
  · intro M hM
    have hd : Binary32.displaced M Binary32.yawZeroCamera Camera_Movement.FORWARD
        Binary32.oneE38 = ⟨float.posInf, float.NaN, float.NaN⟩ := by
      have e : Binary32.displaced M Binary32.yawZeroCamera Camera_Movement.FORWARD
          Binary32.oneE38
          = Binary32.add Binary32.yawZeroCamera.Position
              (Binary32.scale (Binary32.scale
                ({ Binary32.yawZeroCamera.Front with y := float.finite 0 } : vec3 float)
                (M.inversesqrt (Binary32.dot
                  ({ Binary32.yawZeroCamera.Front with y := float.finite 0 } : vec3 float)
                  { Binary32.yawZeroCamera.Front with y := float.finite 0 })))
                (Binary32.MOVEMENT_SPEED * Binary32.oneE38)) := by
        simp [Binary32.displaced, Binary32.GetXZDirection, Binary32.normalize,
          Binary32.yawZeroCamera]
      rw [e, hv, hdot, hM]
      norm_num [Binary32.add, Binary32.scale, Binary32.yawZeroCamera, float_add_def,
        float_mul_def, float.add, float.mul, float.mulInf, float.ofRat, float.overflowBound]
    rw [binary32_ProcessKeyboard_eq]
    show Binary32.checkBoundaries _ = _
    rw [hd]
    norm_num [Binary32.checkBoundaries, Binary32.BOUNDARY_X1, Binary32.BOUNDARY_X2,
      Binary32.BOUNDARY_Z1, Binary32.BOUNDARY_Z2, float_lt_def, float.lt]

/-- Claim C2, amended. In the float model, after `ProcessKeyboard`, from any state, in
any direction and for any `deltaTime`, each of `Position.x` and `Position.z` lies in
`[-8.5, 8.5]` or is NaN, and it is NaN exactly when that coordinate of the displaced
position is NaN. -/
theorem binary32_ProcessKeyboard_bounds_or_nan (M : MathOps float) (c : Camera float)
    (direction : Camera_Movement) (deltaTime : float) :
    ((Binary32.ProcessKeyboard M c direction deltaTime).Position.x = float.NaN ∨
      (float.finite (-8.5) ≤ (Binary32.ProcessKeyboard M c direction deltaTime).Position.x ∧
        (Binary32.ProcessKeyboard M c direction deltaTime).Position.x ≤ float.finite 8.5)) ∧
    ((Binary32.ProcessKeyboard M c direction deltaTime).Position.z = float.NaN ∨
      (float.finite (-8.5) ≤ (Binary32.ProcessKeyboard M c direction deltaTime).Position.z ∧
        (Binary32.ProcessKeyboard M c direction deltaTime).Position.z ≤ float.finite 8.5)) ∧
    ((Binary32.ProcessKeyboard M c direction deltaTime).Position.x = float.NaN ↔
      (Binary32.displaced M c direction deltaTime).x = float.NaN) ∧
    ((Binary32.ProcessKeyboard M c direction deltaTime).Position.z = float.NaN ↔
      (Binary32.displaced M c direction deltaTime).z = float.NaN) := by
  rw [binary32_ProcessKeyboard_eq]
  have hx := float_clamp_spec (-8.5) 8.5 (by norm_num)
    (Binary32.displaced M c direction deltaTime).x
  have hz := float_clamp_spec (-8.5) 8.5 (by norm_num)
    (Binary32.displaced M c direction deltaTime).z
  rw [← binary32_checkBoundaries_x_eq] at hx
  rw [← binary32_checkBoundaries_z_eq] at hz
  exact ⟨hx.1, hz.1, hx.2, hz.2⟩

/-- Exact-arithmetic counterpart of claim C2. Over an ordered field (no NaN, no infinity),
after `ProcessKeyboard`, from any state, in any direction and for any `deltaTime`,
`Position.x` and `Position.z` both lie in `[-8.5, 8.5]`. -/
theorem ProcessKeyboard_position_in_bounds (M : MathOps α) (c : Camera α)
    (direction : Camera_Movement) (deltaTime : α) :
    -8.5 ≤ (ProcessKeyboard M c direction deltaTime).Position.x ∧
    (ProcessKeyboard M c direction deltaTime).Position.x ≤ 8.5 ∧
    -8.5 ≤ (ProcessKeyboard M c direction deltaTime).Position.z ∧
    (ProcessKeyboard M c direction deltaTime).Position.z ≤ 8.5 := by
  rw [ProcessKeyboard_eq]
  exact ⟨(checkBoundaries_x _).1, (checkBoundaries_x _).2,
    (checkBoundaries_z _).1, (checkBoundaries_z _).2⟩

/-- Claim C3 fails as stated. In the float model, from the grounded camera the calls
`Jump`, `Update(1e38f)`, `Update(1.0f)` give the height `2 + 7e38 = inf` and the velocity
`7 - 14e38 = -inf`, then the height `inf + (-inf) = NaN`; NaN fails the test `y < 2`, so
the height stays NaN, which is not at least 2. -/
theorem height_nan_after_overflow :
    Binary32.yawZeroCamera.Position.y = float.finite 2 ∧
    Binary32.yawZeroCamera.isInAir = false ∧
    (Binary32.Update (Binary32.Jump Binary32.yawZeroCamera) Binary32.oneE38).Position.y
      = float.posInf ∧
    (Binary32.Update (Binary32.Jump Binary32.yawZeroCamera) Binary32.oneE38).yVelocity
      = float.negInf ∧
    (Binary32.Update (Binary32.Update (Binary32.Jump Binary32.yawZeroCamera)
      Binary32.oneE38) (float.finite 1)).Position.y = float.NaN ∧
    ¬ (float.finite 2 ≤ (Binary32.Update (Binary32.Update
      (Binary32.Jump Binary32.yawZeroCamera) Binary32.oneE38) (float.finite 1)).Position.y) := by
  norm_num [Binary32.Update, Binary32.Jump, Binary32.yawZeroCamera, Binary32.oneE38,
    Binary32.GRAVITY, Binary32.JUMP_INITIAL_VELOCITY, float_add_def, float_sub_def,
    float_mul_def, float_lt_def, float_le_def, float.add, float.mul, float.neg, float.lt,
    float.le, float.ofRat, float.overflowBound, float.mulInf]

/-- Claim C3, amended. In the float model, after `Update`, from any state and for any
`deltaTime`, `Position.y` is at least 2 or is NaN, and it is NaN exactly when the height
after the integration step (the prior height when not airborne) is NaN. -/
theorem binary32_Update_height (c : Camera float) (deltaTime : float) :
    ((Binary32.Update c deltaTime).Position.y = float.NaN ∨
      float.finite 2 ≤ (Binary32.Update c deltaTime).Position.y) ∧
    ((Binary32.Update c deltaTime).Position.y = float.NaN ↔
      (if c.isInAir then c.Position.y + c.yVelocity * deltaTime else c.Position.y)
        = float.NaN) := by
  have key : ∀ y : float,
      ((if y < float.finite 2 then float.finite 2 else y) = float.NaN ∨
        float.finite 2 ≤ (if y < float.finite 2 then float.finite 2 else y)) ∧
      ((if y < float.finite 2 then float.finite 2 else y) = float.NaN ↔ y = float.NaN) := by
    intro y
    by_cases h : y < float.finite 2
    · rw [if_pos h]
      refine ⟨Or.inr ((float_le_finite _ _).2 le_rfl), ?_⟩
      constructor
      · intro h2; exact absurd h2 (by simp)
      · intro h2; rw [h2] at h; exact absurd h (by simp [float_lt_def, float.lt])
    · rw [if_neg h]
      exact ⟨float_nan_or_two_le y h, Iff.rfl⟩
  have hy : (Binary32.Update c deltaTime).Position.y
      = (if (if c.isInAir then c.Position.y + c.yVelocity * deltaTime else c.Position.y)
            < float.finite 2 then float.finite 2
          else (if c.isInAir then c.Position.y + c.yVelocity * deltaTime
            else c.Position.y)) := by
    simp only [Binary32.Update]
    split_ifs <;> simp_all
  rw [hy]
  exact key _

/-- Exact-arithmetic counterpart of claim C3. Over an ordered field (no NaN, no infinity),
after `Update`, from any state and for any `deltaTime`, `Position.y` is at least 2. -/
theorem Update_position_y_ge_ground (c : Camera α) (deltaTime : α) :
    2 ≤ (Update c deltaTime).Position.y := by
  simp only [Update]
  split_ifs with hair hlow hlow
  · exact le_rfl
  · exact le_of_not_lt hlow
  · exact le_rfl
  · exact le_of_not_lt hlow

/-- Claim C4 fails as stated. From the grounded camera, the calls `Jump`, `Update 1`,
`Update 1` leave the height at exactly 2 with `isInAir` still true (9 - 7 = 2 is not
below 2); the calls `Jump`, `Update 0` do the same. -/
theorem airborne_at_floor_height :
    (groundedExample : Camera ℚ).Position.y = 2 ∧
    (groundedExample : Camera ℚ).isInAir = false ∧
    (groundedExample : Camera ℚ).yVelocity = 0 ∧
    (Update (runCalls (groundedExample : Camera ℚ)
      [VerticalCall.jump, VerticalCall.update 1]) 1).Position.y = 2 ∧
    (Update (runCalls (groundedExample : Camera ℚ)
      [VerticalCall.jump, VerticalCall.update 1]) 1).isInAir = true ∧
    (Update (runCalls (groundedExample : Camera ℚ) [VerticalCall.jump]) 0).Position.y = 2 ∧
    (Update (runCalls (groundedExample : Camera ℚ) [VerticalCall.jump]) 0).isInAir = true := by
  norm_num [groundedExample, runCalls, VerticalCall.apply, Update, Jump, GRAVITY,
    JUMP_INITIAL_VELOCITY]

/-- Claim C4, amended. In every state reached from a camera at floor height by `Jump` and
`Update` calls, right after a further `Update`: if `Position.y = 2` then `isInAir` is
false, unless the camera was airborne before the call and the integration step put it
exactly at height 2, in which case it is at height 2 and still airborne; and
`isInAir = false` implies `Position.y = 2`. -/
theorem Update_floor_flag (c0 : Camera α) (h0 : c0.Position.y = 2)
    (calls : List (VerticalCall α)) (deltaTime : α) :
    ((Update (runCalls c0 calls) deltaTime).Position.y = 2 →
      ¬ ((runCalls c0 calls).isInAir = true ∧
          (runCalls c0 calls).Position.y + (runCalls c0 calls).yVelocity * deltaTime = 2) →
      (Update (runCalls c0 calls) deltaTime).isInAir = false) ∧
    (((runCalls c0 calls).isInAir = true ∧
          (runCalls c0 calls).Position.y + (runCalls c0 calls).yVelocity * deltaTime = 2) →
      (Update (runCalls c0 calls) deltaTime).Position.y = 2 ∧
      (Update (runCalls c0 calls) deltaTime).isInAir = true) ∧
    ((Update (runCalls c0 calls) deltaTime).isInAir = false →
      (Update (runCalls c0 calls) deltaTime).Position.y = 2) := by
  refine ⟨?_, ?_, Update_grounded_inv _ _ (runCalls_grounded_inv calls c0 (fun _ => h0))⟩
  · generalize runCalls c0 calls = s
    simp only [Update]
    split_ifs with h1 h2 h2
    · intro _ _; rfl
    · intro hy hn; exact absurd ⟨h1, hy⟩ hn
    · intro _ _; rfl
    · intro _ _; simpa using h1
  · generalize runCalls c0 calls = s
    rintro ⟨hair, hy⟩
    simp only [Update, hair, if_true, hy, lt_irrefl, if_false]
    exact ⟨trivial, trivial⟩

/-- Instance of the amended claim C4: after `Jump`, `Update 1`, `Update 2` the camera is
at height 2 and no longer airborne. -/
theorem Update_floor_flag_witness :
    (groundedExample : Camera ℚ).Position.y = 2 ∧
    (Update (runCalls (groundedExample : Camera ℚ)
      [VerticalCall.jump, VerticalCall.update 1]) 2).Position.y = 2 ∧
    (Update (runCalls (groundedExample : Camera ℚ)
      [VerticalCall.jump, VerticalCall.update 1]) 2).isInAir = false :=
  ⟨rfl,
   by norm_num [groundedExample, runCalls, VerticalCall.apply, Update, Jump, GRAVITY,
      JUMP_INITIAL_VELOCITY],
   (Update_floor_flag (groundedExample : Camera ℚ) rfl
      [VerticalCall.jump, VerticalCall.update 1] 2).1
     (by norm_num [groundedExample, runCalls, VerticalCall.apply, Update, Jump, GRAVITY,
        JUMP_INITIAL_VELOCITY])
     (by norm_num [groundedExample, runCalls, VerticalCall.apply, Update, Jump, GRAVITY,
        JUMP_INITIAL_VELOCITY])⟩

/-- Claim C5. In a state with `isInAir = true`, `Jump` changes nothing: the whole state,
globals included, is returned as it was. -/
theorem Jump_airborne_noop (c : Camera α) (h : c.isInAir = true) : Jump c = c := by
  simp [Jump, h]

/-- Instance of claim C5 on the mid-flight camera. -/
theorem Jump_airborne_noop_witness :
    (airborneExample : Camera ℚ).isInAir = true ∧
    Jump (airborneExample : Camera ℚ) = airborneExample :=
  ⟨rfl, Jump_airborne_noop airborneExample rfl⟩

/-- Claim C6. With the constructed sensitivity 0.05 and the pitch constraint active,
`ProcessMouseMovement` sets `Yaw` to `Yaw + 0.05 * xoffset` and `Pitch` to
`Pitch + 0.05 * yoffset` clamped into `[-89, 89]`, whatever the prior pitch: the result is
in `[-89, 89]`, is 89 when the sum is at least 89 and -89 when it is at most -89. -/
theorem ProcessMouseMovement_yaw_pitch (M : MathOps α) (c : Camera α) (xoffset yoffset : α)
    (hs : c.MouseSensitivity = SENSITIVITY) :
    (ProcessMouseMovement M c xoffset yoffset true).Yaw = c.Yaw + 0.05 * xoffset ∧
    (ProcessMouseMovement M c xoffset yoffset true).Pitch
      = max (-89) (min 89 (c.Pitch + 0.05 * yoffset)) ∧
    -89 ≤ (ProcessMouseMovement M c xoffset yoffset true).Pitch ∧
    (ProcessMouseMovement M c xoffset yoffset true).Pitch ≤ 89 ∧
    (89 ≤ c.Pitch + 0.05 * yoffset →
      (ProcessMouseMovement M c xoffset yoffset true).Pitch = 89) ∧
    (c.Pitch + 0.05 * yoffset ≤ -89 →
      (ProcessMouseMovement M c xoffset yoffset true).Pitch = -89) := by
  have hY : (ProcessMouseMovement M c xoffset yoffset true).Yaw = c.Yaw + 0.05 * xoffset := by
    simp only [ProcessMouseMovement, updateCameraVectors, hs, SENSITIVITY]
    ring
  have hP : (ProcessMouseMovement M c xoffset yoffset true).Pitch
      = max (-89) (min 89 (c.Pitch + 0.05 * yoffset)) := by
    simp only [ProcessMouseMovement, updateCameraVectors, hs, SENSITIVITY, if_true]
    rw [mul_comm yoffset]
    generalize c.Pitch + 0.05 * yoffset = p
    split_ifs with h1 h2 h2
    · norm_num at h2
    · rw [min_eq_left (le_of_lt h1), max_eq_right (by norm_num)]
    · rw [min_eq_right (le_of_not_lt h1), max_eq_left (le_of_lt h2)]
    · rw [min_eq_right (le_of_not_lt h1), max_eq_right (le_of_not_lt h2)]
  refine ⟨hY, hP, ?_, ?_, ?_, ?_⟩
  · rw [hP]; exact le_max_left _ _
  · rw [hP]; exact max_le (by norm_num) (min_le_left _ _)
  · intro h; rw [hP, min_eq_left h, max_eq_right (by norm_num)]
  · intro h; rw [hP, min_eq_right (le_trans h (by norm_num)), max_eq_left h]

/-- Instance of claim C6: from pitch 0, a vertical offset of 4000 pixels drives the pitch
to exactly 89 and a horizontal offset of 10 pixels adds half a degree of yaw. -/
theorem ProcessMouseMovement_yaw_pitch_witness :
    (groundedExample : Camera ℚ).MouseSensitivity = SENSITIVITY ∧
    (ProcessMouseMovement (MathOps.mk id id id 3) (groundedExample : Camera ℚ) 10 4000 true).Yaw
      = -90 + 0.05 * 10 ∧
    (ProcessMouseMovement (MathOps.mk id id id 3) (groundedExample : Camera ℚ) 10 4000 true).Pitch
      = 89 :=
  ⟨rfl,
   (ProcessMouseMovement_yaw_pitch (MathOps.mk id id id 3) (groundedExample : Camera ℚ)
      10 4000 rfl).1,
   (ProcessMouseMovement_yaw_pitch (MathOps.mk id id id 3) (groundedExample : Camera ℚ)
      10 4000 rfl).2.2.2.2.1 (by norm_num [groundedExample])⟩

/-- Claim C7. `ProcessMouseScroll` sets `Zoom` to `Zoom - yoffset` clamped into `[1, 45]`:
the result is in `[1, 45]`, is 1 when the difference is at most 1 and 45 when it is at
least 45, stays at a bound under further scrolling in the same direction, and the
constructed `Zoom` is 45. -/
theorem ProcessMouseScroll_zoom_clamped (M : MathOps α) (c : Camera α) (yoffset : α)
    (position up : vec3 α) (yaw pitch : α) :
    (ProcessMouseScroll c yoffset).Zoom = min 45 (max 1 (c.Zoom - yoffset)) ∧
    1 ≤ (ProcessMouseScroll c yoffset).Zoom ∧
    (ProcessMouseScroll c yoffset).Zoom ≤ 45 ∧
    (c.Zoom - yoffset ≤ 1 → (ProcessMouseScroll c yoffset).Zoom = 1) ∧
    (45 ≤ c.Zoom - yoffset → (ProcessMouseScroll c yoffset).Zoom = 45) ∧
    (c.Zoom = 1 → 0 ≤ yoffset → (ProcessMouseScroll c yoffset).Zoom = 1) ∧
    (c.Zoom = 45 → yoffset ≤ 0 → (ProcessMouseScroll c yoffset).Zoom = 45) ∧
    (Camera.new M position up yaw pitch).Zoom = 45 := by
  have hZ : (ProcessMouseScroll c yoffset).Zoom = min 45 (max 1 (c.Zoom - yoffset)) := by
    simp only [ProcessMouseScroll]
    generalize c.Zoom - yoffset = z
    split_ifs with h1 h2 h2
    · norm_num at h2
    · rw [max_eq_left (le_of_lt h1), min_eq_right (by norm_num)]
    · rw [max_eq_right (le_of_not_lt h1), min_eq_left (le_of_lt h2)]
    · rw [max_eq_right (le_of_not_lt h1), min_eq_right (le_of_not_gt h2)]
  have h1 : (c.Zoom - yoffset ≤ 1 → (ProcessMouseScroll c yoffset).Zoom = 1) := by
    intro h; rw [hZ, max_eq_left h, min_eq_right (by norm_num)]
  have h45 : (45 ≤ c.Zoom - yoffset → (ProcessMouseScroll c yoffset).Zoom = 45) := by
    intro h; rw [hZ, max_eq_right (le_trans (by norm_num) h), min_eq_left h]
  refine ⟨hZ, ?_, ?_, h1, h45, ?_, ?_, ?_⟩
  · rw [hZ]; exact le_min (by norm_num) (le_max_left _ _)
  · rw [hZ]; exact min_le_left _ _
  · intro hz hy; exact h1 (by rw [hz]; linarith)
  · intro hz hy; exact h45 (by rw [hz]; linarith)
  · simp [Camera.new, updateCameraVectors, ZOOM]

/-- Instance of claim C7: scrolling by 50 from the constructed zoom of 45 lands on 1. -/
theorem ProcessMouseScroll_zoom_clamped_witness :
    (groundedExample : Camera ℚ).Zoom - 50 ≤ 1 ∧
    (ProcessMouseScroll (groundedExample : Camera ℚ) 50).Zoom = 1 :=
  ⟨by norm_num [groundedExample, ZOOM],
   (ProcessMouseScroll_zoom_clamped (MathOps.mk id id id 3) (groundedExample : Camera ℚ) 50
      ⟨0, 2, 7⟩ ⟨0, 1, 0⟩ (-90) 0).2.2.2.1 (by norm_num [groundedExample, ZOOM])⟩

/-- Claim C8 fails as stated. In the float model, from the camera turned to yaw 0 at
height 2, `ProcessKeyboard(FORWARD, 1e38f)` has velocity `7e38 = inf`; the y step is
`0 * inversesqrt(1) * inf = NaN` whatever `inversesqrt` returns, and `Position.y` becomes
`2 + NaN = NaN`. -/
theorem height_nan_after_huge_step :
    Binary32.yawZeroCamera.Position.y = float.finite 2 ∧
    Binary32.MOVEMENT_SPEED * Binary32.oneE38 = float.posInf ∧
    ∀ M : MathOps float,
      (Binary32.ProcessKeyboard M Binary32.yawZeroCamera Camera_Movement.FORWARD
        Binary32.oneE38).Position.y = float.NaN := by
  have hv : Binary32.MOVEMENT_SPEED * Binary32.oneE38 = float.posInf := by
    norm_num [Binary32.MOVEMENT_SPEED, Binary32.oneE38, float_mul_def, float.mul,
      float.ofRat, float.overflowBound]
  refine ⟨rfl, hv, ?_⟩
  intro M
  rw [binary32_ProcessKeyboard_eq]
  show (Binary32.checkBoundaries _).y = float.NaN
  rw [binary32_checkBoundaries_y, binary32_displaced_y]
  show float.finite 2 + _ * (Binary32.MOVEMENT_SPEED * Binary32.oneE38) = float.NaN
  rw [hv, float_zero_mul_mul_posInf]
  rfl

/-- Claim C8, amended. In the float model, for any state whose `Position.y` is a value of
the type, any direction and any `deltaTime`, `ProcessKeyboard` leaves `Position.y`
unchanged or turns it into NaN, and leaves it unchanged whenever the step length
`speed * deltaTime` and the two normalisation factors are finite; every field other than
`Position` is unchanged. -/
theorem binary32_ProcessKeyboard_frame (M : MathOps float) (c : Camera float)
    (direction : Camera_Movement) (deltaTime : float) (hy : float.valid c.Position.y) :
    ((Binary32.ProcessKeyboard M c direction deltaTime).Position.y = c.Position.y ∨
      (Binary32.ProcessKeyboard M c direction deltaTime).Position.y = float.NaN) ∧
    (∀ v kF kR : ℚ,
      (if c.sprintEnabled then c.SprintSpeed * deltaTime else c.MovementSpeed * deltaTime)
        = float.finite v →
      M.inversesqrt (Binary32.dot { c.Front with y := float.finite 0 }
        { c.Front with y := float.finite 0 }) = float.finite kF →
      M.inversesqrt (Binary32.dot { c.Right with y := float.finite 0 }
        { c.Right with y := float.finite 0 }) = float.finite kR →
      (Binary32.ProcessKeyboard M c direction deltaTime).Position.y = c.Position.y) ∧
    (Binary32.ProcessKeyboard M c direction deltaTime).Yaw = c.Yaw ∧
    (Binary32.ProcessKeyboard M c direction deltaTime).Pitch = c.Pitch ∧
    (Binary32.ProcessKeyboard M c direction deltaTime).Front = c.Front ∧
    (Binary32.ProcessKeyboard M c direction deltaTime).Right = c.Right ∧
    (Binary32.ProcessKeyboard M c direction deltaTime).Up = c.Up ∧
    (Binary32.ProcessKeyboard M c direction deltaTime).Zoom = c.Zoom ∧
    (Binary32.ProcessKeyboard M c direction deltaTime).isInAir = c.isInAir ∧
    (Binary32.ProcessKeyboard M c direction deltaTime).yVelocity = c.yVelocity ∧
    (Binary32.ProcessKeyboard M c direction deltaTime).sprintEnabled = c.sprintEnabled ∧
    (Binary32.ProcessKeyboard M c direction deltaTime).WorldUp = c.WorldUp ∧
    (Binary32.ProcessKeyboard M c direction deltaTime).MovementSpeed = c.MovementSpeed ∧
    (Binary32.ProcessKeyboard M c direction deltaTime).SprintSpeed = c.SprintSpeed ∧
    (Binary32.ProcessKeyboard M c direction deltaTime).MouseSensitivity
      = c.MouseSensitivity := by
  have hpy : (Binary32.ProcessKeyboard M c direction deltaTime).Position.y
      = (Binary32.displaced M c direction deltaTime).y := by
    rw [binary32_ProcessKeyboard_eq]
    exact binary32_checkBoundaries_y _
  have hstep : ∀ t : float, t = float.finite 0 ∨ t = float.NaN →
      (c.Position.y + t = c.Position.y ∨ c.Position.y + t = float.NaN) ∧
      (c.Position.y - t = c.Position.y ∨ c.Position.y - t = float.NaN) := by
    intro t ht
    rcases ht with h | h
    · rw [h]
      exact ⟨Or.inl (float_add_zero_valid _ hy).1, Or.inl (float_add_zero_valid _ hy).2⟩
    · rw [h]
      exact ⟨Or.inr (float_add_nan _).1, Or.inr (float_add_nan _).2⟩
  refine ⟨?_, ?_, rfl, rfl, rfl, rfl, rfl, rfl, rfl, rfl, rfl, rfl, rfl, rfl, rfl⟩
  · rw [hpy, binary32_displaced_y]
    cases direction
    · exact (hstep _ (float_zero_mul_mul _ _)).1
    · exact (hstep _ (float_zero_mul_mul _ _)).2
    · exact (hstep _ (float_zero_mul_mul _ _)).2
    · exact (hstep _ (float_zero_mul_mul _ _)).1
  · intro v kF kR hv hF hR
    rw [hpy, binary32_displaced_y]
    cases direction
    · show c.Position.y + _ = _
      rw [hv, hF, float_zero_mul_mul_finite]; exact (float_add_zero_valid _ hy).1
    · show c.Position.y - _ = _
      rw [hv, hF, float_zero_mul_mul_finite]; exact (float_add_zero_valid _ hy).2
    · show c.Position.y - _ = _
      rw [hv, hR, float_zero_mul_mul_finite]; exact (float_add_zero_valid _ hy).2
    · show c.Position.y + _ = _
      rw [hv, hR, float_zero_mul_mul_finite]; exact (float_add_zero_valid _ hy).1

/-- Instance of the amended claim C8: from the camera turned to yaw 0, one second forward
(step 7, `inversesqrt(1) = 1`) leaves the height at 2. -/
theorem binary32_ProcessKeyboard_frame_witness :
    float.valid Binary32.yawZeroCamera.Position.y ∧
    (Binary32.ProcessKeyboard (MathOps.mk id id id (float.finite 0)) Binary32.yawZeroCamera
      Camera_Movement.FORWARD (float.finite 1)).Position.y = float.finite 2 :=
  ⟨by norm_num [float.valid, Binary32.yawZeroCamera, float.overflowBound],
   (binary32_ProcessKeyboard_frame (MathOps.mk id id id (float.finite 0))
      Binary32.yawZeroCamera Camera_Movement.FORWARD (float.finite 1)
      (by norm_num [float.valid, Binary32.yawZeroCamera, float.overflowBound])).2.1 7 1 1
     (by norm_num [Binary32.yawZeroCamera, Binary32.MOVEMENT_SPEED, float_mul_def, float.mul,
        float.ofRat, float.overflowBound])
     (by norm_num [Binary32.dot, Binary32.yawZeroCamera, float_add_def, float_mul_def,
        float.add, float.mul, float.ofRat, float.overflowBound])
     (by norm_num [Binary32.dot, Binary32.yawZeroCamera, float_add_def, float_mul_def,
        float.add, float.mul, float.ofRat, float.overflowBound])⟩

/-- Exact-arithmetic counterpart of claim C8. Over an ordered field (no NaN, no infinity),
`ProcessKeyboard` leaves `Position.y` and every field other than `Position` unchanged, for
any state, direction and `deltaTime`. -/
theorem ProcessKeyboard_frame (M : MathOps α) (c : Camera α)
    (direction : Camera_Movement) (deltaTime : α) :
    (ProcessKeyboard M c direction deltaTime).Position.y = c.Position.y ∧
    (ProcessKeyboard M c direction deltaTime).Yaw = c.Yaw ∧
    (ProcessKeyboard M c direction deltaTime).Pitch = c.Pitch ∧
    (ProcessKeyboard M c direction deltaTime).Front = c.Front ∧
    (ProcessKeyboard M c direction deltaTime).Right = c.Right ∧
    (ProcessKeyboard M c direction deltaTime).Up = c.Up ∧
    (ProcessKeyboard M c direction deltaTime).Zoom = c.Zoom ∧
    (ProcessKeyboard M c direction deltaTime).isInAir = c.isInAir ∧
    (ProcessKeyboard M c direction deltaTime).yVelocity = c.yVelocity ∧
    (ProcessKeyboard M c direction deltaTime).sprintEnabled = c.sprintEnabled ∧
    (ProcessKeyboard M c direction deltaTime).WorldUp = c.WorldUp ∧
    (ProcessKeyboard M c direction deltaTime).MovementSpeed = c.MovementSpeed ∧
    (ProcessKeyboard M c direction deltaTime).SprintSpeed = c.SprintSpeed ∧
    (ProcessKeyboard M c direction deltaTime).MouseSensitivity = c.MouseSensitivity := by
  refine ⟨?_, rfl, rfl, rfl, rfl, rfl, rfl, rfl, rfl, rfl, rfl, rfl, rfl, rfl⟩
  rw [ProcessKeyboard_eq]
  exact (checkBoundaries_y _).trans (displaced_y M c direction deltaTime)

/-- Claim C9. When `worldUp` is not parallel to `target - position` (their cross product
is not zero, which entails `target ≠ position`), `calculate_lookAt_matrix` equals the
textbook right-handed look-at matrix entry by entry over real arithmetic; hence
`GetViewMatrix` equals `lookAt Position (Position + Front) Up`. -/
theorem calculate_lookAt_matrix_eq_lookAt (position target worldUp : vec3 ℝ)
    (h : vec3.cross (vec3.sub target position) worldUp ≠ ⟨0, 0, 0⟩) :
    calculate_lookAt_matrix (MathOps.mk Real.cos Real.sin (fun x => 1 / Real.sqrt x) Real.pi)
        position target worldUp
      = lookAt (MathOps.mk Real.cos Real.sin (fun x => 1 / Real.sqrt x) Real.pi)
        position target worldUp ∧
    ∀ c : Camera ℝ, vec3.cross c.Front c.Up ≠ ⟨0, 0, 0⟩ →
      GetViewMatrix (MathOps.mk Real.cos Real.sin (fun x => 1 / Real.sqrt x) Real.pi) c
        = lookAt (MathOps.mk Real.cos Real.sin (fun x => 1 / Real.sqrt x) Real.pi)
          c.Position (vec3.add c.Position c.Front) c.Up := by
  refine ⟨lookAt_axes_agree position target worldUp h, ?_⟩
  intro c hc
  have hsub : vec3.sub (vec3.add c.Position c.Front) c.Position = c.Front := by
    simp [vec3.sub, vec3.add]
  exact lookAt_axes_agree _ _ _ (by rw [hsub]; exact hc)

/-- Instance of claim C9: eye at the origin looking down the negative Z axis, up along Y. -/
theorem calculate_lookAt_matrix_eq_lookAt_witness :
    vec3.cross (vec3.sub (⟨0, 0, -1⟩ : vec3 ℝ) ⟨0, 0, 0⟩) ⟨0, 1, 0⟩ ≠ ⟨0, 0, 0⟩ ∧
    (calculate_lookAt_matrix (MathOps.mk Real.cos Real.sin (fun x => 1 / Real.sqrt x) Real.pi)
        ⟨0, 0, 0⟩ ⟨0, 0, -1⟩ ⟨0, 1, 0⟩
      = lookAt (MathOps.mk Real.cos Real.sin (fun x => 1 / Real.sqrt x) Real.pi)
        ⟨0, 0, 0⟩ ⟨0, 0, -1⟩ ⟨0, 1, 0⟩ ∧
    ∀ c : Camera ℝ, vec3.cross c.Front c.Up ≠ ⟨0, 0, 0⟩ →
      GetViewMatrix (MathOps.mk Real.cos Real.sin (fun x => 1 / Real.sqrt x) Real.pi) c
        = lookAt (MathOps.mk Real.cos Real.sin (fun x => 1 / Real.sqrt x) Real.pi)
          c.Position (vec3.add c.Position c.Front) c.Up) :=
  ⟨by simp [vec3.cross, vec3.sub],
   calculate_lookAt_matrix_eq_lookAt ⟨0, 0, 0⟩ ⟨0, 0, -1⟩ ⟨0, 1, 0⟩ (by simp [vec3.cross, vec3.sub])⟩

/-- Claim C10 fails as stated. In the float model with `deltaTime = 1e38f > 0`: after
`Jump` the first `Update` gives height `inf` and velocity `-inf`, the second gives height
`inf + (-inf) = NaN`, and that state is a fixed point of `Update` with `isInAir` true, so
no number of `Update` calls lands the camera. -/
theorem never_lands_after_overflow :
    Binary32.yawZeroCamera.Position.y = float.finite 2 ∧
    Binary32.yawZeroCamera.isInAir = false ∧
    float.finite 0 < Binary32.oneE38 ∧
    (Binary32.Update (Binary32.Update (Binary32.Jump Binary32.yawZeroCamera)
      Binary32.oneE38) Binary32.oneE38).Position.y = float.NaN ∧
    Binary32.Update (Binary32.Update (Binary32.Update
        (Binary32.Jump Binary32.yawZeroCamera) Binary32.oneE38) Binary32.oneE38)
      Binary32.oneE38
      = Binary32.Update (Binary32.Update (Binary32.Jump Binary32.yawZeroCamera)
        Binary32.oneE38) Binary32.oneE38 ∧
    ∀ n : ℕ, ((fun s => Binary32.Update s Binary32.oneE38)^[n]
      (Binary32.Jump Binary32.yawZeroCamera)).isInAir = true := by
  have h0 : (Binary32.Jump Binary32.yawZeroCamera).isInAir = true := by
    simp [Binary32.Jump, Binary32.yawZeroCamera]
  have h1 : (Binary32.Update (Binary32.Jump Binary32.yawZeroCamera)
      Binary32.oneE38).isInAir = true := by
    norm_num [Binary32.Update, Binary32.Jump, Binary32.yawZeroCamera, Binary32.oneE38,
      Binary32.GRAVITY, Binary32.JUMP_INITIAL_VELOCITY, float_add_def, float_sub_def,
      float_mul_def, float_lt_def, float.add, float.mul, float.neg, float.lt,
      float.ofRat, float.overflowBound, float.mulInf]
  have h2 : (Binary32.Update (Binary32.Update (Binary32.Jump Binary32.yawZeroCamera)
      Binary32.oneE38) Binary32.oneE38).isInAir = true := by
    norm_num [Binary32.Update, Binary32.Jump, Binary32.yawZeroCamera, Binary32.oneE38,
      Binary32.GRAVITY, Binary32.JUMP_INITIAL_VELOCITY, float_add_def, float_sub_def,
      float_mul_def, float_lt_def, float.add, float.mul, float.neg, float.lt,
      float.ofRat, float.overflowBound, float.mulInf]
  have hfix : Binary32.Update (Binary32.Update (Binary32.Update
        (Binary32.Jump Binary32.yawZeroCamera) Binary32.oneE38) Binary32.oneE38)
      Binary32.oneE38
      = Binary32.Update (Binary32.Update (Binary32.Jump Binary32.yawZeroCamera)
        Binary32.oneE38) Binary32.oneE38 := by
    norm_num [Binary32.Update, Binary32.Jump, Binary32.yawZeroCamera, Binary32.oneE38,
      Binary32.GRAVITY, Binary32.JUMP_INITIAL_VELOCITY, float_add_def, float_sub_def,
      float_mul_def, float_lt_def, float.add, float.mul, float.neg, float.lt,
      float.ofRat, float.overflowBound, float.mulInf]
  have hiter : ∀ n : ℕ, ((fun s => Binary32.Update s Binary32.oneE38)^[n + 2]
      (Binary32.Jump Binary32.yawZeroCamera))
      = Binary32.Update (Binary32.Update (Binary32.Jump Binary32.yawZeroCamera)
        Binary32.oneE38) Binary32.oneE38 := by
    intro n
    induction n with
    | zero => rfl
    | succ n ih => rw [Function.iterate_succ_apply', ih]; exact hfix
  refine ⟨rfl, rfl, by norm_num [Binary32.oneE38, float_lt_def, float.lt], ?_, hfix, ?_⟩
  · norm_num [Binary32.Update, Binary32.Jump, Binary32.yawZeroCamera, Binary32.oneE38,
      Binary32.GRAVITY, Binary32.JUMP_INITIAL_VELOCITY, float_add_def, float_sub_def,
      float_mul_def, float_lt_def, float.add, float.mul, float.neg, float.lt,
      float.ofRat, float.overflowBound, float.mulInf]
  · intro n
    match n with
    | 0 => exact h0
    | 1 => exact h1
    | n + 2 => rw [hiter n]; exact h2

/-- Claim C10, amended. Over exact arithmetic (an Archimedean ordered field such as the
reals: no rounding, no overflow, no NaN), from a grounded camera at height 2, after one
`Jump`, for every step `deltaTime > 0` some number `n ≥ 1` of consecutive
`Update deltaTime` calls leaves the camera landed: `isInAir = false` and
`Position.y = 2`. -/
theorem jump_lands [Archimedean α] (c0 : Camera α) (h0 : c0.Position.y = 2)
    (h0a : c0.isInAir = false) (deltaTime : α) (hdt : 0 < deltaTime) :
    ∃ n : ℕ, 1 ≤ n ∧
      ((fun s => Update s deltaTime)^[n] (Jump c0)).isInAir = false ∧
      ((fun s => Update s deltaTime)^[n] (Jump c0)).Position.y = 2 := by
  obtain ⟨m, hm⟩ := exists_nat_gt (1 / deltaTime)
  have hm1 : 1 < deltaTime * m := by
    have := (div_lt_iff₀ hdt).mp hm
    linarith
  have hland : ((fun s => Update s deltaTime)^[m + 1] (Jump c0)).isInAir = false := by
    by_contra hne
    have hair : ((fun s => Update s deltaTime)^[m + 1] (Jump c0)).isInAir = true := by
      simpa using hne
    have hy := (flight_closed_form c0 h0 h0a deltaTime (m + 1) hair).2
    have hge : 2 ≤ ((fun s => Update s deltaTime)^[m + 1] (Jump c0)).Position.y := by
      rw [Function.iterate_succ_apply']
      exact Update_y_ge_two _ _
    rw [hy] at hge
    push_cast at hge
    have hpos : 0 < 7 * ((m : α) + 1) * deltaTime := by positivity
    nlinarith
  refine ⟨m + 1, Nat.le_add_left 1 m, hland, ?_⟩
  have hinv : ∀ k : ℕ, ((fun s => Update s deltaTime)^[k] (Jump c0)).isInAir = false →
      ((fun s => Update s deltaTime)^[k] (Jump c0)).Position.y = 2 := by
    intro k
    induction k with
    | zero => intro h; simp [Jump, h0a] at h
    | succ k ih =>
      rw [Function.iterate_succ_apply']
      exact Update_grounded_inv _ _ ih
  exact hinv _ hland

/-- Instance of the amended claim C10 with a step of one second. -/
theorem jump_lands_witness :
    (groundedExample : Camera ℚ).Position.y = 2 ∧
    (groundedExample : Camera ℚ).isInAir = false ∧
    (0 : ℚ) < 1 ∧
    ∃ n : ℕ, 1 ≤ n ∧
      ((fun s => Update s 1)^[n] (Jump (groundedExample : Camera ℚ))).isInAir = false ∧
      ((fun s => Update s 1)^[n] (Jump (groundedExample : Camera ℚ))).Position.y = 2 :=
  ⟨rfl, rfl, one_pos, jump_lands (groundedExample : Camera ℚ) rfl rfl 1 one_pos⟩

/-- Claim C11 fails as stated. From `(0, 2, 7)` facing `(0, 0, -1)` with a step of two
seconds, the walking move ends at `(0, 2, -7)` (magnitude 14) while the sprinting move,
28 units long before the boundary check, is clamped to `(0, 2, -8.5)` (magnitude 15.5),
which is not twice 14. -/
theorem sprint_ratio_broken_by_clamp :
    (-8.5 : ℝ) ≤ (groundedExample : Camera ℝ).Position.x ∧
    (groundedExample : Camera ℝ).Position.x ≤ 8.5 ∧
    (-8.5 : ℝ) ≤ (groundedExample : Camera ℝ).Position.z ∧
    (groundedExample : Camera ℝ).Position.z ≤ 8.5 ∧
    (ProcessKeyboard (MathOps.mk Real.cos Real.sin (fun x => 1 / Real.sqrt x) Real.pi)
      (SetSprint groundedExample true) Camera_Movement.FORWARD 2).Position = ⟨0, 2, -8.5⟩ ∧
    (ProcessKeyboard (MathOps.mk Real.cos Real.sin (fun x => 1 / Real.sqrt x) Real.pi)
      (SetSprint groundedExample false) Camera_Movement.FORWARD 2).Position = ⟨0, 2, -7⟩ ∧
    Real.sqrt (vec3.dot
      (vec3.sub (ProcessKeyboard
        (MathOps.mk Real.cos Real.sin (fun x => 1 / Real.sqrt x) Real.pi)
        (SetSprint groundedExample true) Camera_Movement.FORWARD 2).Position
        (groundedExample : Camera ℝ).Position)
      (vec3.sub (ProcessKeyboard
        (MathOps.mk Real.cos Real.sin (fun x => 1 / Real.sqrt x) Real.pi)
        (SetSprint groundedExample true) Camera_Movement.FORWARD 2).Position
        (groundedExample : Camera ℝ).Position))
      ≠ (14 / 7) * Real.sqrt (vec3.dot
      (vec3.sub (ProcessKeyboard
        (MathOps.mk Real.cos Real.sin (fun x => 1 / Real.sqrt x) Real.pi)
        (SetSprint groundedExample false) Camera_Movement.FORWARD 2).Position
        (groundedExample : Camera ℝ).Position)
      (vec3.sub (ProcessKeyboard
        (MathOps.mk Real.cos Real.sin (fun x => 1 / Real.sqrt x) Real.pi)
        (SetSprint groundedExample false) Camera_Movement.FORWARD 2).Position
        (groundedExample : Camera ℝ).Position)) := by
  have hs : (ProcessKeyboard (MathOps.mk Real.cos Real.sin (fun x => 1 / Real.sqrt x) Real.pi)
      (SetSprint groundedExample true) Camera_Movement.FORWARD 2).Position
      = ⟨0, 2, -8.5⟩ := by
    rw [ProcessKeyboard_eq]
    show checkBoundaries _ = _
    rw [(displaced_cases _ _ _).1]
    norm_num [SetSprint, groundedExample, GetXZDirection, vec3.normalize, vec3.dot, vec3.add,
      vec3.scale, SPRINT_SPEED, checkBoundaries, BOUNDARY_X1, BOUNDARY_X2, BOUNDARY_Z1,
      BOUNDARY_Z2]
  have hw : (ProcessKeyboard (MathOps.mk Real.cos Real.sin (fun x => 1 / Real.sqrt x) Real.pi)
      (SetSprint groundedExample false) Camera_Movement.FORWARD 2).Position
      = ⟨0, 2, -7⟩ := by
    rw [ProcessKeyboard_eq]
    show checkBoundaries _ = _
    rw [(displaced_cases _ _ _).1]
    norm_num [SetSprint, groundedExample, GetXZDirection, vec3.normalize, vec3.dot, vec3.add,
      vec3.scale, MOVEMENT_SPEED, checkBoundaries, BOUNDARY_X1, BOUNDARY_X2, BOUNDARY_Z1,
      BOUNDARY_Z2]
  refine ⟨by norm_num [groundedExample], by norm_num [groundedExample],
    by norm_num [groundedExample], by norm_num [groundedExample], hs, hw, ?_⟩
  rw [hs, hw]
  have e1 : vec3.dot (vec3.sub (⟨0, 2, -8.5⟩ : vec3 ℝ) (groundedExample : Camera ℝ).Position)
      (vec3.sub (⟨0, 2, -8.5⟩ : vec3 ℝ) (groundedExample : Camera ℝ).Position)
      = (15.5 : ℝ) ^ 2 := by
    norm_num [vec3.dot, vec3.sub, groundedExample]
  have e2 : vec3.dot (vec3.sub (⟨0, 2, -7⟩ : vec3 ℝ) (groundedExample : Camera ℝ).Position)
      (vec3.sub (⟨0, 2, -7⟩ : vec3 ℝ) (groundedExample : Camera ℝ).Position)
      = (14 : ℝ) ^ 2 := by
    norm_num [vec3.dot, vec3.sub, groundedExample]
  rw [e1, e2, Real.sqrt_sq (by norm_num), Real.sqrt_sq (by norm_num)]
  norm_num

/-- Claim C11, amended. From a start position inside the boundary rectangle, with the
constructed speeds 7 and 14, for any facing and any `deltaTime`: if the sprinting
`FORWARD` move is not clamped (its displaced position lies in the rectangle), then its
magnitude is `SprintSpeed / MovementSpeed = 2` times the magnitude of the walking
`FORWARD` move from the same state. -/
theorem sprint_displacement_ratio (M : MathOps ℝ) (c : Camera ℝ) (deltaTime : ℝ)
    (hx1 : -8.5 ≤ c.Position.x) (hx2 : c.Position.x ≤ 8.5)
    (hz1 : -8.5 ≤ c.Position.z) (hz2 : c.Position.z ≤ 8.5)
    (hM : c.MovementSpeed = MOVEMENT_SPEED) (hS : c.SprintSpeed = SPRINT_SPEED)
    (hsx1 : -8.5 ≤ (displaced M (SetSprint c true) Camera_Movement.FORWARD deltaTime).x)
    (hsx2 : (displaced M (SetSprint c true) Camera_Movement.FORWARD deltaTime).x ≤ 8.5)
    (hsz1 : -8.5 ≤ (displaced M (SetSprint c true) Camera_Movement.FORWARD deltaTime).z)
    (hsz2 : (displaced M (SetSprint c true) Camera_Movement.FORWARD deltaTime).z ≤ 8.5) :
    Real.sqrt (vec3.dot
      (vec3.sub (ProcessKeyboard M (SetSprint c true)
        Camera_Movement.FORWARD deltaTime).Position c.Position)
      (vec3.sub (ProcessKeyboard M (SetSprint c true)
        Camera_Movement.FORWARD deltaTime).Position c.Position))
      = (c.SprintSpeed / c.MovementSpeed) * Real.sqrt (vec3.dot
      (vec3.sub (ProcessKeyboard M (SetSprint c false)
        Camera_Movement.FORWARD deltaTime).Position c.Position)
      (vec3.sub (ProcessKeyboard M (SetSprint c false)
        Camera_Movement.FORWARD deltaTime).Position c.Position)) ∧
    c.SprintSpeed / c.MovementSpeed = 2 := by
  have hds : displaced M (SetSprint c true) Camera_Movement.FORWARD deltaTime
      = vec3.add c.Position (vec3.scale (GetXZDirection M c.Front) (14 * deltaTime)) := by
    rw [(displaced_cases _ _ _).1]
    simp [SetSprint, hS, SPRINT_SPEED]
  have hdw : displaced M (SetSprint c false) Camera_Movement.FORWARD deltaTime
      = vec3.add c.Position (vec3.scale (GetXZDirection M c.Front) (7 * deltaTime)) := by
    rw [(displaced_cases _ _ _).1]
    simp [SetSprint, hM, MOVEMENT_SPEED]
  have hps : (ProcessKeyboard M (SetSprint c true) Camera_Movement.FORWARD deltaTime).Position
      = vec3.add c.Position (vec3.scale (GetXZDirection M c.Front) (14 * deltaTime)) := by
    rw [ProcessKeyboard_eq]
    show checkBoundaries _ = _
    rw [checkBoundaries_inside _ hsx1 hsx2 hsz1 hsz2, hds]
  have hpw : (ProcessKeyboard M (SetSprint c false) Camera_Movement.FORWARD deltaTime).Position
      = vec3.add c.Position (vec3.scale (GetXZDirection M c.Front) (7 * deltaTime)) := by
    rw [ProcessKeyboard_eq]
    show checkBoundaries _ = _
    rw [hds] at hsx1 hsx2 hsz1 hsz2
    simp only [vec3.add, vec3.scale] at hsx1 hsx2 hsz1 hsz2
    rw [hdw]
    apply checkBoundaries_inside <;> simp only [vec3.add, vec3.scale] <;> linarith
  have hratio : c.SprintSpeed / c.MovementSpeed = 2 := by
    rw [hS, hM]; norm_num [SPRINT_SPEED, MOVEMENT_SPEED]
  refine ⟨?_, hratio⟩
  rw [hps, hpw, hratio]
  have hdot : vec3.dot
      (vec3.sub (vec3.add c.Position (vec3.scale (GetXZDirection M c.Front) (14 * deltaTime)))
        c.Position)
      (vec3.sub (vec3.add c.Position (vec3.scale (GetXZDirection M c.Front) (14 * deltaTime)))
        c.Position)
      = 2 ^ 2 * vec3.dot
      (vec3.sub (vec3.add c.Position (vec3.scale (GetXZDirection M c.Front) (7 * deltaTime)))
        c.Position)
      (vec3.sub (vec3.add c.Position (vec3.scale (GetXZDirection M c.Front) (7 * deltaTime)))
        c.Position) := by
    simp only [vec3.dot, vec3.sub, vec3.add, vec3.scale]
    ring
  rw [hdot, Real.sqrt_mul (sq_nonneg 2), Real.sqrt_sq (by norm_num)]

/-- Instance of the amended claim C11: from `(0, 2, 7)` facing `(0, 0, -1)` with a step of
half a second, the sprinting move (7 units, ending at `(0, 2, 0)`) is twice the walking
move. -/
theorem sprint_displacement_ratio_witness :
    (-8.5 : ℝ) ≤ (groundedExample : Camera ℝ).Position.x ∧
    (groundedExample : Camera ℝ).Position.x ≤ 8.5 ∧
    (-8.5 : ℝ) ≤ (groundedExample : Camera ℝ).Position.z ∧
    (groundedExample : Camera ℝ).Position.z ≤ 8.5 ∧
    (groundedExample : Camera ℝ).MovementSpeed = MOVEMENT_SPEED ∧
    (groundedExample : Camera ℝ).SprintSpeed = SPRINT_SPEED ∧
    displaced (MathOps.mk Real.cos Real.sin (fun x => 1 / Real.sqrt x) Real.pi)
      (SetSprint (groundedExample : Camera ℝ) true) Camera_Movement.FORWARD (1 / 2)
      = ⟨0, 2, 0⟩ ∧
    Real.sqrt (vec3.dot
      (vec3.sub (ProcessKeyboard
        (MathOps.mk Real.cos Real.sin (fun x => 1 / Real.sqrt x) Real.pi)
        (SetSprint groundedExample true) Camera_Movement.FORWARD (1 / 2)).Position
        (groundedExample : Camera ℝ).Position)
      (vec3.sub (ProcessKeyboard
        (MathOps.mk Real.cos Real.sin (fun x => 1 / Real.sqrt x) Real.pi)
        (SetSprint groundedExample true) Camera_Movement.FORWARD (1 / 2)).Position
        (groundedExample : Camera ℝ).Position))
      = ((groundedExample : Camera ℝ).SprintSpeed / (groundedExample : Camera ℝ).MovementSpeed)
        * Real.sqrt (vec3.dot
      (vec3.sub (ProcessKeyboard
        (MathOps.mk Real.cos Real.sin (fun x => 1 / Real.sqrt x) Real.pi)
        (SetSprint groundedExample false) Camera_Movement.FORWARD (1 / 2)).Position
        (groundedExample : Camera ℝ).Position)
      (vec3.sub (ProcessKeyboard
        (MathOps.mk Real.cos Real.sin (fun x => 1 / Real.sqrt x) Real.pi)
        (SetSprint groundedExample false) Camera_Movement.FORWARD (1 / 2)).Position
        (groundedExample : Camera ℝ).Position)) := by
  have hd : displaced (MathOps.mk Real.cos Real.sin (fun x => 1 / Real.sqrt x) Real.pi)
      (SetSprint (groundedExample : Camera ℝ) true) Camera_Movement.FORWARD (1 / 2)
      = ⟨0, 2, 0⟩ := by
    rw [(displaced_cases _ _ _).1]
    norm_num [SetSprint, groundedExample, GetXZDirection, vec3.normalize, vec3.dot, vec3.add,
      vec3.scale, SPRINT_SPEED]
  exact ⟨by norm_num [groundedExample], by norm_num [groundedExample],
    by norm_num [groundedExample], by norm_num [groundedExample], rfl, rfl, hd,
    (sprint_displacement_ratio
      (MathOps.mk Real.cos Real.sin (fun x => 1 / Real.sqrt x) Real.pi)
      groundedExample (1 / 2)
      (by norm_num [groundedExample]) (by norm_num [groundedExample])
      (by norm_num [groundedExample]) (by norm_num [groundedExample]) rfl rfl
      (by rw [hd]; norm_num) (by rw [hd]; norm_num)
      (by rw [hd]; norm_num) (by rw [hd]; norm_num)).1⟩

/-- Claim C12. Over the reals, the camera constructed at `(0, 2, 7)` with the default yaw
-90, pitch 0 and `WorldUp = (0, 1, 0)` has `Front = (0, 0, -1)`, speed 7 and sprint off,
and `ProcessKeyboard FORWARD 1` moves it to exactly `(0, 2, 0)`, which is the displaced
position itself: no boundary check fires. -/
theorem mainCamera_forward_one_second :
    (mainCamera (MathOps.mk Real.cos Real.sin (fun x => 1 / Real.sqrt x) Real.pi)).Position
      = ⟨0, 2, 7⟩ ∧
    (mainCamera (MathOps.mk Real.cos Real.sin (fun x => 1 / Real.sqrt x) Real.pi)).Front
      = ⟨0, 0, -1⟩ ∧
    (mainCamera (MathOps.mk Real.cos Real.sin (fun x => 1 / Real.sqrt x) Real.pi)).MovementSpeed
      = 7 ∧
    (mainCamera (MathOps.mk Real.cos Real.sin (fun x => 1 / Real.sqrt x) Real.pi)).sprintEnabled
      = false ∧
    (ProcessKeyboard (MathOps.mk Real.cos Real.sin (fun x => 1 / Real.sqrt x) Real.pi)
      (mainCamera (MathOps.mk Real.cos Real.sin (fun x => 1 / Real.sqrt x) Real.pi))
      Camera_Movement.FORWARD 1).Position = ⟨0, 2, 0⟩ ∧
    displaced (MathOps.mk Real.cos Real.sin (fun x => 1 / Real.sqrt x) Real.pi)
      (mainCamera (MathOps.mk Real.cos Real.sin (fun x => 1 / Real.sqrt x) Real.pi))
      Camera_Movement.FORWARD 1 = ⟨0, 2, 0⟩ := by
  rw [mainCamera_eq]
  have hd : displaced (MathOps.mk Real.cos Real.sin (fun x => 1 / Real.sqrt x) Real.pi)
      (groundedExample : Camera ℝ) Camera_Movement.FORWARD 1 = ⟨0, 2, 0⟩ := by
    rw [(displaced_cases _ _ _).1]
    norm_num [groundedExample, GetXZDirection, vec3.normalize, vec3.dot, vec3.add,
      vec3.scale, MOVEMENT_SPEED]
  refine ⟨rfl, rfl, rfl, rfl, ?_, hd⟩
  rw [ProcessKeyboard_eq]
  show checkBoundaries _ = _
  rw [hd]
  exact checkBoundaries_inside _ (by norm_num) (by norm_num) (by norm_num) (by norm_num)

/-- Claim C13 fails as stated. Press left shift, press right shift, release left shift:
the right key is still held, yet `sprintEnabled` is false. -/
theorem sprint_cleared_while_held :
    (groundedExample : Camera ℚ).sprintEnabled = false ∧
    heldAfter ShiftKey.right
      [⟨ShiftKey.left, true⟩, ⟨ShiftKey.right, true⟩, ⟨ShiftKey.left, false⟩] = true ∧
    (processShiftEvents (groundedExample : Camera ℚ)
      [⟨ShiftKey.left, true⟩, ⟨ShiftKey.right, true⟩, ⟨ShiftKey.left, false⟩]).sprintEnabled
      = false := by
  refine ⟨rfl, by decide, ?_⟩
  simp [processShiftEvents, key_callback, ShiftKey.code, ShiftEvent.action, SetSprint,
    GLFW_KEY_LEFT_SHIFT, GLFW_KEY_RIGHT_SHIFT, GLFW_KEY_SPACE, GLFW_PRESS, GLFW_RELEASE]

/-- Claim C13, amended. Starting with sprint disabled, after any sequence of shift press
and release events `sprintEnabled` is true exactly when the last event processed was a
press; so `sprintEnabled` true implies that a shift key is held, while a release of one
key clears it even if the other key is still held. -/
theorem key_callback_sprint_latch (c : Camera α) (h : c.sprintEnabled = false)
    (events : List ShiftEvent) :
    (processShiftEvents c events).sprintEnabled = lastIsPress events ∧
    ((processShiftEvents c events).sprintEnabled = true →
      heldAfter ShiftKey.left events = true ∨ heldAfter ShiftKey.right events = true) ∧
    (∀ k : ShiftKey, (processShiftEvents c (events ++ [⟨k, false⟩])).sprintEnabled = false) := by
  have hlast : ∀ es : List ShiftEvent,
      (processShiftEvents c es).sprintEnabled = lastIsPress es := by
    intro es
    induction es using List.reverseRecOn with
    | nil => simpa [processShiftEvents, lastIsPress] using h
    | append_singleton es e _ =>
      simp only [processShiftEvents, lastIsPress, List.foldl_append, List.foldl_cons,
        List.foldl_nil]
      exact key_callback_shift_sprint _ e
  have hheld : ∀ es : List ShiftEvent, lastIsPress es = true →
      heldAfter ShiftKey.left es = true ∨ heldAfter ShiftKey.right es = true := by
    intro es
    induction es using List.reverseRecOn with
    | nil => intro h0; simp [lastIsPress] at h0
    | append_singleton es e _ =>
      obtain ⟨k, p⟩ := e
      simp only [heldAfter, lastIsPress, List.foldl_append, List.foldl_cons, List.foldl_nil]
      intro hp
      cases k
      · left; simpa using hp
      · right; simpa using hp
  refine ⟨hlast events, fun hs => hheld events (by rw [← hlast events]; exact hs), ?_⟩
  intro k
  rw [hlast]
  simp [lastIsPress, List.foldl_append]

/-- Instance of the amended claim C13: after pressing left shift then right shift, sprint
is on and a shift key is held. -/
theorem key_callback_sprint_latch_witness :
    (groundedExample : Camera ℚ).sprintEnabled = false ∧
    (processShiftEvents (groundedExample : Camera ℚ)
      [⟨ShiftKey.left, true⟩, ⟨ShiftKey.right, true⟩]).sprintEnabled = true ∧
    (heldAfter ShiftKey.left [⟨ShiftKey.left, true⟩, ⟨ShiftKey.right, true⟩] = true ∨
      heldAfter ShiftKey.right [⟨ShiftKey.left, true⟩, ⟨ShiftKey.right, true⟩] = true) :=
  ⟨rfl,
   (key_callback_sprint_latch (groundedExample : Camera ℚ) rfl
      [⟨ShiftKey.left, true⟩, ⟨ShiftKey.right, true⟩]).1.trans (by decide),
   (key_callback_sprint_latch (groundedExample : Camera ℚ) rfl
      [⟨ShiftKey.left, true⟩, ⟨ShiftKey.right, true⟩]).2.1
     ((key_callback_sprint_latch (groundedExample : Camera ℚ) rfl
      [⟨ShiftKey.left, true⟩, ⟨ShiftKey.right, true⟩]).1.trans (by decide))⟩

/-- Claim C15. For a basis computed by `updateCameraVectors` with `WorldUp = (0, 1, 0)`,
any yaw and a pitch in `[-89, 89]` degrees, `GetXZDirection Front` and
`GetXZDirection Right` have y component 0 and length 1; hence, when the boundary checks
leave the displaced position as it is, the displacement of one `ProcessKeyboard` call has
y component 0 and magnitude `speed * |deltaTime|`, whatever the pitch (speeds taken
non-negative, as constructed). -/
theorem GetXZDirection_unit_horizontal (c : Camera ℝ) (hup : c.WorldUp = ⟨0, 1, 0⟩)
    (hlo : -89 ≤ c.Pitch) (hhi : c.Pitch ≤ 89)
    (hM : 0 ≤ c.MovementSpeed) (hS : 0 ≤ c.SprintSpeed) :
    (GetXZDirection (MathOps.mk Real.cos Real.sin (fun x => 1 / Real.sqrt x) Real.pi)
      (updateCameraVectors
        (MathOps.mk Real.cos Real.sin (fun x => 1 / Real.sqrt x) Real.pi) c).Front).y = 0 ∧
    Real.sqrt (vec3.dot
      (GetXZDirection (MathOps.mk Real.cos Real.sin (fun x => 1 / Real.sqrt x) Real.pi)
        (updateCameraVectors
          (MathOps.mk Real.cos Real.sin (fun x => 1 / Real.sqrt x) Real.pi) c).Front)
      (GetXZDirection (MathOps.mk Real.cos Real.sin (fun x => 1 / Real.sqrt x) Real.pi)
        (updateCameraVectors
          (MathOps.mk Real.cos Real.sin (fun x => 1 / Real.sqrt x) Real.pi) c).Front)) = 1 ∧
    (GetXZDirection (MathOps.mk Real.cos Real.sin (fun x => 1 / Real.sqrt x) Real.pi)
      (updateCameraVectors
        (MathOps.mk Real.cos Real.sin (fun x => 1 / Real.sqrt x) Real.pi) c).Right).y = 0 ∧
    Real.sqrt (vec3.dot
      (GetXZDirection (MathOps.mk Real.cos Real.sin (fun x => 1 / Real.sqrt x) Real.pi)
        (updateCameraVectors
          (MathOps.mk Real.cos Real.sin (fun x => 1 / Real.sqrt x) Real.pi) c).Right)
      (GetXZDirection (MathOps.mk Real.cos Real.sin (fun x => 1 / Real.sqrt x) Real.pi)
        (updateCameraVectors
          (MathOps.mk Real.cos Real.sin (fun x => 1 / Real.sqrt x) Real.pi) c).Right)) = 1 ∧
    ∀ (direction : Camera_Movement) (deltaTime : ℝ),
      (ProcessKeyboard (MathOps.mk Real.cos Real.sin (fun x => 1 / Real.sqrt x) Real.pi)
        (updateCameraVectors
          (MathOps.mk Real.cos Real.sin (fun x => 1 / Real.sqrt x) Real.pi) c)
        direction deltaTime).Position
        = displaced (MathOps.mk Real.cos Real.sin (fun x => 1 / Real.sqrt x) Real.pi)
          (updateCameraVectors
            (MathOps.mk Real.cos Real.sin (fun x => 1 / Real.sqrt x) Real.pi) c)
          direction deltaTime →
      (vec3.sub
        (ProcessKeyboard (MathOps.mk Real.cos Real.sin (fun x => 1 / Real.sqrt x) Real.pi)
          (updateCameraVectors
            (MathOps.mk Real.cos Real.sin (fun x => 1 / Real.sqrt x) Real.pi) c)
          direction deltaTime).Position c.Position).y = 0 ∧
      Real.sqrt (vec3.dot
        (vec3.sub
          (ProcessKeyboard (MathOps.mk Real.cos Real.sin (fun x => 1 / Real.sqrt x) Real.pi)
            (updateCameraVectors
              (MathOps.mk Real.cos Real.sin (fun x => 1 / Real.sqrt x) Real.pi) c)
            direction deltaTime).Position c.Position)
        (vec3.sub
          (ProcessKeyboard (MathOps.mk Real.cos Real.sin (fun x => 1 / Real.sqrt x) Real.pi)
            (updateCameraVectors
              (MathOps.mk Real.cos Real.sin (fun x => 1 / Real.sqrt x) Real.pi) c)
            direction deltaTime).Position c.Position))
        = (if c.sprintEnabled then c.SprintSpeed else c.MovementSpeed) * |deltaTime| := by
  have hcp := cos_radians_pos c.Pitch hlo hhi
  obtain ⟨hgF, hgR⟩ := GetXZDirection_explicit c hup hcp
  have hy := Real.sin_sq_add_cos_sq (c.Yaw * (Real.pi / 180))
  have hdF : vec3.dot
      (GetXZDirection (MathOps.mk Real.cos Real.sin (fun x => 1 / Real.sqrt x) Real.pi)
        (updateCameraVectors
          (MathOps.mk Real.cos Real.sin (fun x => 1 / Real.sqrt x) Real.pi) c).Front)
      (GetXZDirection (MathOps.mk Real.cos Real.sin (fun x => 1 / Real.sqrt x) Real.pi)
        (updateCameraVectors
          (MathOps.mk Real.cos Real.sin (fun x => 1 / Real.sqrt x) Real.pi) c).Front) = 1 := by
    rw [hgF]; simp only [vec3.dot]; linear_combination hy
  have hdR : vec3.dot
      (GetXZDirection (MathOps.mk Real.cos Real.sin (fun x => 1 / Real.sqrt x) Real.pi)
        (updateCameraVectors
          (MathOps.mk Real.cos Real.sin (fun x => 1 / Real.sqrt x) Real.pi) c).Right)
      (GetXZDirection (MathOps.mk Real.cos Real.sin (fun x => 1 / Real.sqrt x) Real.pi)
        (updateCameraVectors
          (MathOps.mk Real.cos Real.sin (fun x => 1 / Real.sqrt x) Real.pi) c).Right) = 1 := by
    rw [hgR]; simp only [vec3.dot]; linear_combination hy
  have hvel : ∀ dt : ℝ, |if c.sprintEnabled = true then c.SprintSpeed * dt
      else c.MovementSpeed * dt|
        = (if c.sprintEnabled = true then c.SprintSpeed else c.MovementSpeed) * |dt| := by
    intro dt
    split_ifs
    · rw [abs_mul, abs_of_nonneg hS]
    · rw [abs_mul, abs_of_nonneg hM]
  refine ⟨by rw [hgF], by rw [hdF, Real.sqrt_one], by rw [hgR], by rw [hdR, Real.sqrt_one], ?_⟩
  intro direction deltaTime hpos
  rw [hpos]
  cases direction
  · rw [(displaced_cases _ _ _).1]
    refine ⟨?_, (step_magnitude _ _ _ hdF).1.trans (hvel deltaTime)⟩
    rw [hgF]; simp [vec3.sub, vec3.add, vec3.scale, updateCameraVectors]
  · rw [(displaced_cases _ _ _).2.1]
    refine ⟨?_, (step_magnitude _ _ _ hdF).2.trans (hvel deltaTime)⟩
    rw [hgF]; simp [vec3.sub, vec3.add, vec3.scale, updateCameraVectors]
  · rw [(displaced_cases _ _ _).2.2.1]
    refine ⟨?_, (step_magnitude _ _ _ hdR).2.trans (hvel deltaTime)⟩
    rw [hgR]; simp [vec3.sub, vec3.add, vec3.scale, updateCameraVectors]
  · rw [(displaced_cases _ _ _).2.2.2]
    refine ⟨?_, (step_magnitude _ _ _ hdR).1.trans (hvel deltaTime)⟩
    rw [hgR]; simp [vec3.sub, vec3.add, vec3.scale, updateCameraVectors]

/-- Instance of claim C15 at the pose of the camera of main.cpp: the horizontal forward
direction has length 1. -/
theorem GetXZDirection_unit_horizontal_witness :
    (groundedExample : Camera ℝ).WorldUp = ⟨0, 1, 0⟩ ∧
    -89 ≤ (groundedExample : Camera ℝ).Pitch ∧
    (groundedExample : Camera ℝ).Pitch ≤ 89 ∧
    0 ≤ (groundedExample : Camera ℝ).MovementSpeed ∧
    0 ≤ (groundedExample : Camera ℝ).SprintSpeed ∧
    Real.sqrt (vec3.dot
      (GetXZDirection (MathOps.mk Real.cos Real.sin (fun x => 1 / Real.sqrt x) Real.pi)
        (updateCameraVectors
          (MathOps.mk Real.cos Real.sin (fun x => 1 / Real.sqrt x) Real.pi)
          groundedExample).Front)
      (GetXZDirection (MathOps.mk Real.cos Real.sin (fun x => 1 / Real.sqrt x) Real.pi)
        (updateCameraVectors
          (MathOps.mk Real.cos Real.sin (fun x => 1 / Real.sqrt x) Real.pi)
          groundedExample).Front)) = 1 :=
  ⟨rfl, by norm_num [groundedExample], by norm_num [groundedExample],
   by norm_num [groundedExample, MOVEMENT_SPEED], by norm_num [groundedExample, SPRINT_SPEED],
   (GetXZDirection_unit_horizontal groundedExample rfl
      (by norm_num [groundedExample]) (by norm_num [groundedExample])
      (by norm_num [groundedExample, MOVEMENT_SPEED])
      (by norm_num [groundedExample, SPRINT_SPEED])).2.1⟩

/-- Claim C16. In a state with `isInAir = false`, `Jump` sets `isInAir` to true and
`yVelocity` to 7 and leaves every other field (position, orientation, zoom, sprint flag,
tunables) unchanged. -/
theorem Jump_grounded (c : Camera α) (h : c.isInAir = false) :
    Jump c = { c with isInAir := true, yVelocity := 7 } := by
  simp [Jump, h, JUMP_INITIAL_VELOCITY]

/-- Instance of claim C16 on the grounded camera. -/
theorem Jump_grounded_witness :
    (groundedExample : Camera ℚ).isInAir = false ∧
    Jump (groundedExample : Camera ℚ)
      = { (groundedExample : Camera ℚ) with isInAir := true, yVelocity := 7 } :=
  ⟨rfl, Jump_grounded groundedExample rfl⟩

/-- Claim C17. `Update` changes nothing but `Position.y`, `yVelocity` and `isInAir`:
`Position.x`, `Position.z`, the angles, the basis, the zoom, the sprint flag and the
tunables are as before, for any state and any `deltaTime`. -/
theorem Update_frame (c : Camera α) (deltaTime : α) :
    (Update c deltaTime).Position.x = c.Position.x ∧
    (Update c deltaTime).Position.z = c.Position.z ∧
    (Update c deltaTime).Yaw = c.Yaw ∧
    (Update c deltaTime).Pitch = c.Pitch ∧
    (Update c deltaTime).Front = c.Front ∧
    (Update c deltaTime).Right = c.Right ∧
    (Update c deltaTime).Up = c.Up ∧
    (Update c deltaTime).Zoom = c.Zoom ∧
    (Update c deltaTime).sprintEnabled = c.sprintEnabled ∧
    (Update c deltaTime).WorldUp = c.WorldUp ∧
    (Update c deltaTime).MovementSpeed = c.MovementSpeed ∧
    (Update c deltaTime).SprintSpeed = c.SprintSpeed ∧
    (Update c deltaTime).MouseSensitivity = c.MouseSensitivity := by
  simp only [Update]
  split_ifs <;> exact ⟨rfl, rfl, rfl, rfl, rfl, rfl, rfl, rfl, rfl, rfl, rfl, rfl, rfl⟩

/-- Claim C18. For a basis computed by `updateCameraVectors` with `WorldUp = (0, 1, 0)` and
a pitch in `[-89, 89]` degrees, the matrix of `GetViewMatrix` sends the homogeneous eye
point `(Position, 1)` to `(0, 0, 0, 1)` and `(Position + Front, 1)` to `(0, 0, -1, 1)`,
over real arithmetic. -/
theorem GetViewMatrix_eye_and_front (c : Camera ℝ) (hup : c.WorldUp = ⟨0, 1, 0⟩)
    (hlo : -89 ≤ c.Pitch) (hhi : c.Pitch ≤ 89) :
    mat4.mulVec
      (GetViewMatrix (MathOps.mk Real.cos Real.sin (fun x => 1 / Real.sqrt x) Real.pi)
        (updateCameraVectors
          (MathOps.mk Real.cos Real.sin (fun x => 1 / Real.sqrt x) Real.pi) c))
      ![c.Position.x, c.Position.y, c.Position.z, 1] = ![0, 0, 0, 1] ∧
    mat4.mulVec
      (GetViewMatrix (MathOps.mk Real.cos Real.sin (fun x => 1 / Real.sqrt x) Real.pi)
        (updateCameraVectors
          (MathOps.mk Real.cos Real.sin (fun x => 1 / Real.sqrt x) Real.pi) c))
      ![(vec3.add c.Position (updateCameraVectors
          (MathOps.mk Real.cos Real.sin (fun x => 1 / Real.sqrt x) Real.pi) c).Front).x,
        (vec3.add c.Position (updateCameraVectors
          (MathOps.mk Real.cos Real.sin (fun x => 1 / Real.sqrt x) Real.pi) c).Front).y,
        (vec3.add c.Position (updateCameraVectors
          (MathOps.mk Real.cos Real.sin (fun x => 1 / Real.sqrt x) Real.pi) c).Front).z,
        1] = ![0, 0, -1, 1] := by
  have hcp := cos_radians_pos c.Pitch hlo hhi
  obtain ⟨hF, -, -⟩ := updateCameraVectors_explicit c hup hcp
  have hy := Real.sin_sq_add_cos_sq (c.Yaw * (Real.pi / 180))
  have hp := Real.sin_sq_add_cos_sq (c.Pitch * (Real.pi / 180))
  have hFF : vec3.dot (updateCameraVectors
      (MathOps.mk Real.cos Real.sin (fun x => 1 / Real.sqrt x) Real.pi) c).Front
      (updateCameraVectors
      (MathOps.mk Real.cos Real.sin (fun x => 1 / Real.sqrt x) Real.pi) c).Front = 1 := by
    rw [hF]; simp only [vec3.dot]
    linear_combination (Real.cos (c.Pitch * (Real.pi / 180))) ^ 2 * hy + hp
  exact lookAt_unit_front c.Position _ _ hFF

/-- Instance of claim C18 at the pose of the camera of main.cpp: the eye `(0, 2, 7)` is
sent to the view-space origin. -/
theorem GetViewMatrix_eye_and_front_witness :
    (groundedExample : Camera ℝ).WorldUp = ⟨0, 1, 0⟩ ∧
    -89 ≤ (groundedExample : Camera ℝ).Pitch ∧
    (groundedExample : Camera ℝ).Pitch ≤ 89 ∧
    mat4.mulVec
      (GetViewMatrix (MathOps.mk Real.cos Real.sin (fun x => 1 / Real.sqrt x) Real.pi)
        (updateCameraVectors
          (MathOps.mk Real.cos Real.sin (fun x => 1 / Real.sqrt x) Real.pi)
          groundedExample))
      ![(groundedExample : Camera ℝ).Position.x, (groundedExample : Camera ℝ).Position.y,
        (groundedExample : Camera ℝ).Position.z, 1] = ![0, 0, 0, 1] :=
  ⟨rfl, by norm_num [groundedExample], by norm_num [groundedExample],
   (GetViewMatrix_eye_and_front groundedExample rfl
      (by norm_num [groundedExample]) (by norm_num [groundedExample])).1⟩

/-- Claim C19. In a state with `isInAir = false` and `Position.y ≥ 2`, `Update` returns the
state unchanged: gravity acts only while airborne. -/
theorem Update_grounded_identity (c : Camera α) (deltaTime : α) (h : c.isInAir = false)
    (hy : 2 ≤ c.Position.y) : Update c deltaTime = c := by
  simp only [Update, h, Bool.false_eq_true, if_false]
  rw [if_neg (not_lt.mpr hy)]

/-- Instance of claim C19: the camera one unit above the floor with `isInAir` cleared
does not fall. -/
theorem Update_grounded_identity_witness :
    ({ (airborneExample : Camera ℚ) with isInAir := false } : Camera ℚ).isInAir = false ∧
    (2 : ℚ) ≤ ({ (airborneExample : Camera ℚ) with isInAir := false } : Camera ℚ).Position.y ∧
    Update ({ (airborneExample : Camera ℚ) with isInAir := false } : Camera ℚ) 1
      = { (airborneExample : Camera ℚ) with isInAir := false } :=
  ⟨rfl, by norm_num [airborneExample],
   Update_grounded_identity _ 1 rfl (by norm_num [airborneExample])⟩

/-- Claim C20. From a start position inside the boundary rectangle, if the position after
the direction branch of `ProcessKeyboard FORWARD` lies strictly inside the rectangle (so
no boundary check fires), a following `ProcessKeyboard BACKWARD` with the same `deltaTime`
returns `Position` exactly to its start; likewise for `RIGHT` followed by `LEFT`. -/
theorem ProcessKeyboard_round_trip (M : MathOps α) (c : Camera α) (deltaTime : α)
    (hx1 : -8.5 ≤ c.Position.x) (hx2 : c.Position.x ≤ 8.5)
    (hz1 : -8.5 ≤ c.Position.z) (hz2 : c.Position.z ≤ 8.5) :
    (-8.5 < (displaced M c Camera_Movement.FORWARD deltaTime).x ∧
      (displaced M c Camera_Movement.FORWARD deltaTime).x < 8.5 ∧
      -8.5 < (displaced M c Camera_Movement.FORWARD deltaTime).z ∧
      (displaced M c Camera_Movement.FORWARD deltaTime).z < 8.5 →
      (ProcessKeyboard M c Camera_Movement.FORWARD deltaTime).Position
        = displaced M c Camera_Movement.FORWARD deltaTime ∧
      (ProcessKeyboard M (ProcessKeyboard M c Camera_Movement.FORWARD deltaTime)
        Camera_Movement.BACKWARD deltaTime).Position = c.Position) ∧
    (-8.5 < (displaced M c Camera_Movement.RIGHT deltaTime).x ∧
      (displaced M c Camera_Movement.RIGHT deltaTime).x < 8.5 ∧
      -8.5 < (displaced M c Camera_Movement.RIGHT deltaTime).z ∧
      (displaced M c Camera_Movement.RIGHT deltaTime).z < 8.5 →
      (ProcessKeyboard M c Camera_Movement.RIGHT deltaTime).Position
        = displaced M c Camera_Movement.RIGHT deltaTime ∧
      (ProcessKeyboard M (ProcessKeyboard M c Camera_Movement.RIGHT deltaTime)
        Camera_Movement.LEFT deltaTime).Position = c.Position) := by
  constructor
  · rintro ⟨h1, h2, h3, h4⟩
    have hin := checkBoundaries_inside _ (le_of_lt h1) (le_of_lt h2) (le_of_lt h3) (le_of_lt h4)
    have hfwd : (ProcessKeyboard M c Camera_Movement.FORWARD deltaTime).Position
        = displaced M c Camera_Movement.FORWARD deltaTime := by
      rw [ProcessKeyboard_eq]; exact hin
    refine ⟨hfwd, ?_⟩
    rw [ProcessKeyboard_eq M (ProcessKeyboard M c Camera_Movement.FORWARD deltaTime)]
    have hback : displaced M (ProcessKeyboard M c Camera_Movement.FORWARD deltaTime)
        Camera_Movement.BACKWARD deltaTime = c.Position := by
      rw [(displaced_cases M _ deltaTime).2.1, hfwd, (displaced_cases M c deltaTime).1]
      exact add_sub_scale _ _ _
    show checkBoundaries _ = _
    rw [hback]
    exact checkBoundaries_inside _ hx1 hx2 hz1 hz2
  · rintro ⟨h1, h2, h3, h4⟩
    have hin := checkBoundaries_inside _ (le_of_lt h1) (le_of_lt h2) (le_of_lt h3) (le_of_lt h4)
    have hfwd : (ProcessKeyboard M c Camera_Movement.RIGHT deltaTime).Position
        = displaced M c Camera_Movement.RIGHT deltaTime := by
      rw [ProcessKeyboard_eq]; exact hin
    refine ⟨hfwd, ?_⟩
    rw [ProcessKeyboard_eq M (ProcessKeyboard M c Camera_Movement.RIGHT deltaTime)]
    have hback : displaced M (ProcessKeyboard M c Camera_Movement.RIGHT deltaTime)
        Camera_Movement.LEFT deltaTime = c.Position := by
      rw [(displaced_cases M _ deltaTime).2.2.1, hfwd, (displaced_cases M c deltaTime).2.2.2]
      exact add_sub_scale _ _ _
    show checkBoundaries _ = _
    rw [hback]
    exact checkBoundaries_inside _ hx1 hx2 hz1 hz2

/-- Instance of claim C20 over the reals: from `(0, 2, 7)` facing `(0, 0, -1)`, half a
second forward reaches `(0, 2, 3.5)` and half a second backward returns to the start. -/
theorem ProcessKeyboard_round_trip_witness :
    (-8.5 : ℝ) ≤ (groundedExample : Camera ℝ).Position.x ∧
    (groundedExample : Camera ℝ).Position.x ≤ 8.5 ∧
    (-8.5 : ℝ) ≤ (groundedExample : Camera ℝ).Position.z ∧
    (groundedExample : Camera ℝ).Position.z ≤ 8.5 ∧
    (ProcessKeyboard (MathOps.mk Real.cos Real.sin (fun x => 1 / Real.sqrt x) Real.pi)
      (ProcessKeyboard (MathOps.mk Real.cos Real.sin (fun x => 1 / Real.sqrt x) Real.pi)
        groundedExample Camera_Movement.FORWARD (1 / 2))
      Camera_Movement.BACKWARD (1 / 2)).Position = (groundedExample : Camera ℝ).Position :=
  ⟨by norm_num [groundedExample], by norm_num [groundedExample],
   by norm_num [groundedExample], by norm_num [groundedExample],
   ((ProcessKeyboard_round_trip
      (MathOps.mk Real.cos Real.sin (fun x => 1 / Real.sqrt x) Real.pi)
      groundedExample (1 / 2)
      (by norm_num [groundedExample]) (by norm_num [groundedExample])
      (by norm_num [groundedExample]) (by norm_num [groundedExample])).1
     (by rw [(displaced_cases _ _ _).1]
         norm_num [groundedExample, GetXZDirection, vec3.normalize, vec3.dot,
           vec3.add, vec3.scale, MOVEMENT_SPEED])).2⟩

end Claims

end FpsDemo
